import Mathlib

/-!
Shallow embedding of the core rendering engine of `super-table`
(`src/utils/spanning.rs` and `src/utils/formatting/borders.rs`),
together with theorems settling the specification claims about it.

Rust `HashMap`s are modelled as association lists; the list order models
the unspecified hash iteration order, and the order-independence of the
lookups is proved where the claims need it.  `usize`/`u16` arithmetic is
modelled on `Nat`; Rust's `saturating_sub` coincides with `Nat`
subtraction.
-/

set_option linter.all false

namespace SuperTable

/-- Vertical alignment of cell content (src/style/cell.rs). -/
inductive VerticalAlignment where
  | Top
  | Middle
  | Bottom
deriving DecidableEq

/-- Content arrangement mode of a table. -/
inductive ContentArrangement where
  | Disabled
  | Dynamic
  | DynamicFullWidth
deriving DecidableEq

/-- The border components a table style maps to glyphs. -/
inductive TableComponent where
  | TopLeftCorner
  | TopBorder
  | TopBorderIntersections
  | TopRightCorner
  | LeftBorder
  | RightBorder
  | VerticalLines
  | HorizontalLines
  | MiddleIntersections
  | LeftBorderIntersections
  | RightBorderIntersections
  | LeftHeaderIntersection
  | HeaderLines
  | MiddleHeaderIntersections
  | MiddleHeaderMergeIntersection
  | RightHeaderIntersection
  | BottomLeftCorner
  | BottomBorder
  | BottomBorderIntersections
  | BottomBorderColspanIntersections
  | BottomRightCorner
deriving DecidableEq

/-- A cell, restricted to the span data the border layer reads. -/
structure Cell where
  colspan : Nat
  rowspan : Nat
deriving DecidableEq

/-- A row is an ordered sequence of cells. -/
structure Row where
  cells : List Cell
deriving DecidableEq

/-- A table, restricted to what the border layer reads: header, data rows,
arrangement mode and the style map (a preset maps components to glyphs,
absence means "do not draw"). -/
structure Table where
  header : Option Row
  rows : List Row
  arrangement : ContentArrangement
  style : TableComponent → Option String

/-- `Table::style_or_default`: the glyph for a component, falling back to a
space when the preset leaves it unset. -/
def Table.style_or_default (t : Table) (c : TableComponent) : String :=
  (t.style c).getD " "

/-- `Table::style_exists`. -/
def Table.style_exists (t : Table) (c : TableComponent) : Bool :=
  (t.style c).isSome

/-- Derived per-column display data (width and visibility). -/
structure ColumnDisplayInfo where
  is_hidden : Bool
  width : Nat
deriving DecidableEq

/-- Information about an active rowspan (src/utils/spanning.rs). -/
structure RowSpanInfo where
  start_row : Nat
  original_rowspan : Nat
  remaining_rows : Nat
  colspan : Nat
  formatted_content : Option (List String)
  vertical_alignment : VerticalAlignment
deriving DecidableEq

/-- The span tracker: active spans keyed by `(start_row, start_col)`, plus
ended spans `(start_row, start_col) → (end_row, colspan)`.  The Rust hash
maps are modelled as association lists. -/
structure SpanTracker where
  active_spans : List ((Nat × Nat) × RowSpanInfo)
  ended_spans : List ((Nat × Nat) × (Nat × Nat))
deriving DecidableEq

/-- `SpanTracker::new`. -/
def SpanTracker.new : SpanTracker := ⟨[], []⟩

/-- `HashMap::insert` on the association-list model: replace the value of an
existing key, otherwise append the binding. -/
def insertAssoc {β : Type} (k : Nat × Nat) (v : β)
    (l : List ((Nat × Nat) × β)) : List ((Nat × Nat) × β) :=
  if l.any (fun e => decide (e.1 = k)) then
    l.map (fun e => if e.1 = k then (k, v) else e)
  else
    l ++ [(k, v)]

/-- `SpanTracker::is_occupied`: first active span with `start_row < row`
covering the column, projected to `(remaining_rows, colspan)`. -/
def SpanTracker.is_occupied (st : SpanTracker) (row_index col_index : Nat) :
    Option (Nat × Nat) :=
  (st.active_spans.find? (fun e =>
      decide (e.1.1 < row_index ∧ e.1.2 ≤ col_index ∧
        col_index < e.1.2 + e.2.colspan))).map
    (fun e => (e.2.remaining_rows, e.2.colspan))

/-- `SpanTracker::register_rowspan`: insert with
`remaining_rows = rowspan - 1`, but only when `rowspan > 1`. -/
def SpanTracker.register_rowspan (st : SpanTracker)
    (row_index col_index rowspan colspan : Nat)
    (formatted_content : Option (List String))
    (vertical_alignment : VerticalAlignment) : SpanTracker :=
  if 1 < rowspan then
    { st with
      active_spans := insertAssoc (row_index, col_index)
        { start_row := row_index
          original_rowspan := rowspan
          remaining_rows := rowspan - 1
          colspan := colspan
          formatted_content := formatted_content
          vertical_alignment := vertical_alignment } st.active_spans }
  else st

/-- `SpanTracker::get_rowspan_content_offset`: the row offset inside a span
where content starts, from the span's vertical alignment;
`saturating_sub` is `Nat` subtraction. -/
def SpanTracker.get_rowspan_content_offset (st : SpanTracker)
    (start_row col_index content_height : Nat) : Nat :=
  match st.active_spans.find? (fun e =>
      decide (e.1.1 = start_row ∧ e.1.2 ≤ col_index ∧
        col_index < e.1.2 + e.2.colspan)) with
  | some e =>
    let total_rows := e.2.original_rowspan
    let padding_rows := total_rows - content_height
    match e.2.vertical_alignment with
    | .Top => 0
    | .Middle => padding_rows / 2
    | .Bottom => padding_rows
  | none => 0

/-- `SpanTracker::advance_row`: collect the spans with `remaining_rows == 0`
into `ended_spans` (removing them from `active_spans`), then decrement
`remaining_rows` on active spans with `start_row < current_row`. -/
def SpanTracker.advance_row (st : SpanTracker) (current_row : Nat) :
    SpanTracker :=
  let expired := (st.active_spans.filter
      (fun e => decide (e.2.remaining_rows = 0))).map
    (fun e => (e.1, (e.2.start_row + e.2.original_rowspan - 1, e.2.colspan)))
  let st1 := expired.foldl (fun acc ev =>
    { acc with
      ended_spans := insertAssoc ev.1 ev.2 acc.ended_spans
      active_spans := acc.active_spans.filter
        (fun e => !(decide (e.1 = ev.1))) }) st
  { st1 with
    active_spans := st1.active_spans.map (fun e =>
      if e.2.start_row < current_row ∧ 0 < e.2.remaining_rows then
        (e.1, { e.2 with remaining_rows := e.2.remaining_rows - 1 })
      else e) }

/-- `SpanTracker::get_rowspan_start_at_row`: span covering the position that
started at or before `row_index` and still continues (`remaining_rows > 0`). -/
def SpanTracker.get_rowspan_start_at_row (st : SpanTracker)
    (row_index col_index : Nat) : Option (Nat × Nat × Nat) :=
  (st.active_spans.find? (fun e =>
      decide (e.1.1 ≤ row_index ∧ 0 < e.2.remaining_rows ∧
        e.1.2 ≤ col_index ∧ col_index < e.1.2 + e.2.colspan))).map
    (fun e => (e.1.1, e.1.2, e.2.colspan))

/-- `SpanTracker::get_rowspan_including_row`: span whose original row range
(`start_row ..= start_row + original_rowspan - 1`) includes `row_index`. -/
def SpanTracker.get_rowspan_including_row (st : SpanTracker)
    (row_index col_index : Nat) : Option (Nat × Nat × Nat) :=
  (st.active_spans.find? (fun e =>
      decide (e.1.1 ≤ row_index ∧
        row_index ≤ e.2.start_row + e.2.original_rowspan - 1 ∧
        e.1.2 ≤ col_index ∧ col_index < e.1.2 + e.2.colspan))).map
    (fun e => (e.1.1, e.1.2, e.2.colspan))

/-- `SpanTracker::get_rowspan_at_last_row`: active spans first, then the
ended map. -/
def SpanTracker.get_rowspan_at_last_row (st : SpanTracker)
    (row_index col_index : Nat) : Option (Nat × Nat × Nat) :=
  match st.get_rowspan_including_row row_index col_index with
  | some result => some result
  | none =>
    (st.ended_spans.find? (fun e =>
        decide (e.1.1 ≤ row_index ∧ row_index ≤ e.2.1 ∧
          e.1.2 ≤ col_index ∧ col_index < e.1.2 + e.2.2))).map
      (fun e => (e.1.1, e.1.2, e.2.2))

/-- `str.repeat(n)` on Rust strings: `n` copies of `s` concatenated. -/
def repeatStr (s : String) (n : Nat) : String :=
  String.join (List.replicate n s)

/-- `should_draw_left_border` (src/utils/formatting/borders.rs). -/
def should_draw_left_border (t : Table) : Bool :=
  t.style_exists .TopLeftCorner || t.style_exists .LeftBorder ||
  t.style_exists .LeftBorderIntersections ||
  t.style_exists .LeftHeaderIntersection || t.style_exists .BottomLeftCorner

/-- `should_draw_right_border` (src/utils/formatting/borders.rs). -/
def should_draw_right_border (t : Table) : Bool :=
  t.style_exists .TopRightCorner || t.style_exists .RightBorder ||
  t.style_exists .RightBorderIntersections ||
  t.style_exists .RightHeaderIntersection || t.style_exists .BottomRightCorner

/-- The three intersection shapes `select_intersection_type` can choose. -/
inductive IntersectionType where
  | Normal
  | Merge
  | LeftBorderAfterRowspan
deriving DecidableEq

/-- `select_intersection_type` (src/utils/formatting/borders.rs). -/
def select_intersection_type (header previous_was_rowspan
    next_row_has_colspan : Bool) : IntersectionType :=
  if !header && previous_was_rowspan then .LeftBorderAfterRowspan
  else if next_row_has_colspan then .Merge
  else .Normal

/-- Style characters used while drawing one horizontal separator line. -/
structure BorderStyles where
  left_intersection : String
  left_border : String
  horizontal : String
  middle_intersection : String
  merge_intersection : String
  left_border_intersection : String
  right_intersection : String

/-- `BorderStyles::for_row`: header separators and data separators read
different components from the style map. -/
def BorderStyles.for_row (t : Table) (header : Bool) : BorderStyles :=
  if header then
    { left_intersection := t.style_or_default .LeftHeaderIntersection
      left_border := t.style_or_default .LeftBorder
      horizontal := t.style_or_default .HeaderLines
      middle_intersection := t.style_or_default .MiddleHeaderIntersections
      merge_intersection := t.style_or_default .MiddleHeaderMergeIntersection
      left_border_intersection := t.style_or_default .LeftBorderIntersections
      right_intersection := t.style_or_default .RightHeaderIntersection }
  else
    { left_intersection := t.style_or_default .LeftBorderIntersections
      left_border := t.style_or_default .LeftBorder
      horizontal := t.style_or_default .HorizontalLines
      middle_intersection := t.style_or_default .MiddleIntersections
      merge_intersection := t.style_or_default .BottomBorderIntersections
      left_border_intersection := t.style_or_default .LeftBorderIntersections
      right_intersection := t.style_or_default .RightBorderIntersections }

/-- `BorderStyles::get_intersection`. -/
def BorderStyles.get_intersection (s : BorderStyles) :
    IntersectionType → String
  | .Normal => s.middle_intersection
  | .Merge => s.merge_intersection
  | .LeftBorderAfterRowspan => s.left_border_intersection

/-- The inner loop of `build_colspan_continuation_map`: mark columns
`col_index + 1 .. col_index + colspan - 1` as continuations, skipping
indices past the end of the vector. -/
def markContinuations (cont : List Bool) (col_index colspan : Nat) :
    List Bool :=
  (List.range (colspan - 1)).foldl (fun acc i =>
    if col_index + i + 1 < acc.length then acc.set (col_index + i + 1) true
    else acc) cont

/-- One cell's step of `build_colspan_continuation_map`: state is
`(col_index, continuation vector, all_have_colspan)`. -/
def buildColspanStep (st : Nat × List Bool × Bool) (cell : Cell) :
    Nat × List Bool × Bool :=
  let allHave := if cell.colspan = 1 then false else st.2.2
  (st.1 + cell.colspan, markContinuations st.2.1 st.1 cell.colspan, allHave)

/-- `build_colspan_continuation_map` (src/utils/formatting/borders.rs):
which columns are colspan continuations of a row's cells, and whether
every cell of the row has `colspan != 1`. -/
def build_colspan_continuation_map (row_cells : Option Row)
    (num_columns : Nat) : List Bool × Bool :=
  match row_cells with
  | none => (List.replicate num_columns false, false)
  | some row =>
    let st := row.cells.foldl buildColspanStep
      (0, List.replicate num_columns false, true)
    (st.2.1, st.2.2)

/-- The per-column loop of `draw_top_border`, threading the physical column
index and the `first` flag exactly as the Rust `for` loop does. -/
def topBorderAux (top_border intersection : String) (cont : List Bool)
    (should_merge : Bool) :
    List ColumnDisplayInfo → Nat → Bool → String
  | [], _, _ => ""
  | info :: rest, col_index, first =>
    if !info.is_hidden then
      (if !first then
        (if should_merge &&
            (decide (col_index < cont.length) && cont.getD col_index false)
         then top_border else intersection)
       else "") ++
      repeatStr top_border info.width ++
      topBorderAux top_border intersection cont should_merge rest
        (col_index + 1) false
    else
      topBorderAux top_border intersection cont should_merge rest
        (col_index + 1) first

/-- `draw_top_border` (src/utils/formatting/borders.rs). -/
def draw_top_border (t : Table) (display_info : List ColumnDisplayInfo) :
    String :=
  let left_corner := t.style_or_default .TopLeftCorner
  let top_border := t.style_or_default .TopBorder
  let intersection := t.style_or_default .TopBorderIntersections
  let right_corner := t.style_or_default .TopRightCorner
  let hdr := build_colspan_continuation_map t.header display_info.length
  let is_dynamic := decide (t.arrangement = .Dynamic) ||
    decide (t.arrangement = .DynamicFullWidth)
  let should_merge := !hdr.2 && !is_dynamic
  let line := if should_draw_left_border t then left_corner else ""
  let line := line ++
    topBorderAux top_border intersection hdr.1 should_merge display_info 0 true
  if should_draw_right_border t then line ++ right_corner else line

/-- `draw_rowspan_space` (src/utils/formatting/borders.rs): spaces covering
a continuing rowspan area, and the number of columns consumed.  The Rust
iterator `take(end_col).skip(start_col)` is `(take end_col).drop start_col`. -/
def draw_rowspan_space (display_info : List ColumnDisplayInfo)
    (start_col colspan : Nat) : String × Nat :=
  let end_col := start_col + colspan
  let visible := ((display_info.take end_col).drop start_col).filter
    (fun info => !info.is_hidden)
  let width := (visible.map (fun info => info.width)).sum +
    (visible.length - 1)
  (repeatStr " " width, end_col - start_col)

/-- Pre-computed border state of one column at a separator line. -/
structure ColumnBorderInfo where
  is_hidden : Bool
  width : Nat
  is_rowspan_continuing : Bool
  rowspan_start_col : Option Nat
  rowspan_colspan : Nat
  is_rowspan_ending : Bool
  ending_rowspan_start_col : Option Nat
  ending_rowspan_colspan : Nat
  is_colspan_continuation : Bool
  next_row_has_colspan : Bool
deriving DecidableEq

/-- Out-of-range placeholder for `ColumnDisplayInfo` list reads whose
indices the source guards to be in bounds. -/
def dfltCol : ColumnDisplayInfo := ⟨true, 0⟩

/-- The visible columns of an ending-rowspan area:
`start_col .. min(start_col + colspan, len) - 1` restricted to non-hidden
columns (the clamp and filter of `draw_ending_rowspan_border`). -/
def endingRowspanVisibleCols (display_info : List ColumnDisplayInfo)
    (start_col colspan : Nat) : List Nat :=
  (List.range' start_col
      (min (start_col + colspan) display_info.length - start_col)).filter
    (fun i => !(display_info.getD i dfltCol).is_hidden)

/-- `draw_ending_rowspan_border` (src/utils/formatting/borders.rs): merged
border across an ending rowspan's columns, and the number of columns
consumed. -/
def draw_ending_rowspan_border (display_info : List ColumnDisplayInfo)
    (column_infos : List ColumnBorderInfo) (current_idx start_col colspan : Nat)
    (styles : BorderStyles) (first previous_was_rowspan header : Bool) :
    String × Nat :=
  let end_col := start_col + colspan
  match h : endingRowspanVisibleCols display_info start_col colspan with
  | [] => ("", end_col - start_col)
  | v0 :: vrest =>
    let inter := if !first then
        let next_row_has_colspan :=
          ((column_infos.get? current_idx).map
            (fun c => c.next_row_has_colspan)).getD false
        styles.get_intersection
          (select_intersection_type header previous_was_rowspan
            next_row_has_colspan)
      else ""
    let body := repeatStr styles.horizontal
        (display_info.getD v0 dfltCol).width ++
      String.join (vrest.map (fun i =>
        styles.horizontal ++
        repeatStr styles.horizontal (display_info.getD i dfltCol).width))
    (inter ++ body, end_col - start_col)

/-- The last-row colspan-continuation test of `draw_bottom_border`: the
visible column at ordinal `v` is a colspan continuation iff the last row's
first line has an empty-string marker there. -/
def lastRowColspanAt (last_row_line : Option (List String)) (v : Nat) :
    Bool :=
  match last_row_line with
  | some parts => decide (v < parts.length) && (parts.getD v "").isEmpty
  | none => false

/-- The `while col_index < display_info.len()` loop of `draw_bottom_border`,
with a structural fuel argument; every iteration advances `col_index` by at
least one, so fuel `display_info.length` never runs out.  Arguments after
the fuel are `col_index`, `visible_col_index`, `first` and the accumulated
line. -/
def bottomBorderLoop (t : Table) (display_info : List ColumnDisplayInfo)
    (header_cont : List Bool) (last_row_line : Option (List String))
    (st : SpanTracker) (last_row_index : Nat) :
    Nat → Nat → Nat → Bool → String → String
  | 0, _, _, _, line => line
  | fuel + 1, col_index, visible_col_index, first, line =>
    if hcol : col_index < display_info.length then
      let info := display_info.get ⟨col_index, hcol⟩
      if info.is_hidden then
        bottomBorderLoop t display_info header_cont last_row_line st
          last_row_index fuel (col_index + 1) visible_col_index first line
      else
        match st.get_rowspan_at_last_row last_row_index col_index with
        | some (_, start_col, rowspan_colspan) =>
          let bottom_border := t.style_or_default .BottomBorder
          let merge_intersection :=
            t.style_or_default .BottomBorderColspanIntersections
          let visibleCount := ((List.range' start_col rowspan_colspan).filter
            (fun i => decide (i < display_info.length) &&
              !(display_info.getD i dfltCol).is_hidden)).length
          let line := if !first && decide (0 < visibleCount) then
              line ++ merge_intersection
            else line
          let line := if 0 < visibleCount then
              line ++ repeatStr bottom_border
                (display_info.getD start_col dfltCol).width
            else line
          let line := (List.range' (start_col + 1) (rowspan_colspan - 1)).foldl
            (fun l i =>
              if decide (i < display_info.length) &&
                  !(display_info.getD i dfltCol).is_hidden then
                l ++ merge_intersection ++
                  repeatStr bottom_border (display_info.getD i dfltCol).width
              else l) line
          bottomBorderLoop t display_info header_cont last_row_line st
            last_row_index fuel (start_col + rowspan_colspan)
            (visible_col_index + visibleCount) false line
        | none =>
          let bottom_border := t.style_or_default .BottomBorder
          let intersection := t.style_or_default .BottomBorderIntersections
          let merge_intersection :=
            t.style_or_default .BottomBorderColspanIntersections
          let line := if !first then
              let is_header_colspan :=
                decide (col_index < header_cont.length) &&
                  header_cont.getD col_index false
              let is_lastrow_colspan :=
                lastRowColspanAt last_row_line visible_col_index
              let few_data_rows := decide (t.rows.length ≤ 2)
              let should_merge :=
                is_lastrow_colspan && (is_header_colspan || few_data_rows)
              if should_merge then line ++ merge_intersection
              else line ++ intersection
            else line
          bottomBorderLoop t display_info header_cont last_row_line st
            last_row_index fuel (col_index + 1) (visible_col_index + 1) false
            (line ++ repeatStr bottom_border info.width)
    else line

/-- `draw_bottom_border` (src/utils/formatting/borders.rs). -/
def draw_bottom_border (t : Table) (display_info : List ColumnDisplayInfo)
    (last_row_line : Option (List String)) (st : SpanTracker)
    (last_row_index : Nat) : String :=
  let left_corner := t.style_or_default .BottomLeftCorner
  let right_corner := t.style_or_default .BottomRightCorner
  let header_cont :=
    (build_colspan_continuation_map t.header display_info.length).1
  let line := if should_draw_left_border t then left_corner else ""
  let line := bottomBorderLoop t display_info header_cont last_row_line st
    last_row_index display_info.length 0 0 true line
  if should_draw_right_border t then line ++ right_corner else line

/-- The visible columns of a display list, each with its physical index and
its visible ordinal. -/
def enumVisibleAux : List ColumnDisplayInfo → Nat → Nat →
    List (Nat × Nat × ColumnDisplayInfo)
  | [], _, _ => []
  | info :: rest, p, v =>
    if info.is_hidden then enumVisibleAux rest (p + 1) v
    else (p, v, info) :: enumVisibleAux rest (p + 1) (v + 1)

/-- Visible columns with physical index and visible ordinal, from the left. -/
def enumVisible (display_info : List ColumnDisplayInfo) :
    List (Nat × Nat × ColumnDisplayInfo) :=
  enumVisibleAux display_info 0 0

/-- Claim-side condition for the bottom border, following the spec's words:
the join right of which sits the column with physical index `p` and
visible ordinal `v` is merged iff the last data row has a colspan
continuation there AND (the header also has one there OR the table has at
most 2 data rows). -/
def bottomBorderMergeCond (t : Table) (header_cont : List Bool)
    (last_row_line : Option (List String)) (p v : Nat) : Bool :=
  lastRowColspanAt last_row_line v &&
    (header_cont.getD p false || decide (t.rows.length ≤ 2))

/-- Claim-side glyph for an interior bottom-border join: the merge glyph at
merge positions, the `BottomBorderIntersections` glyph otherwise. -/
def bottomBorderJoinSpec (t : Table) (header_cont : List Bool)
    (last_row_line : Option (List String)) (p v : Nat) : String :=
  if bottomBorderMergeCond t header_cont last_row_line p v then
    t.style_or_default .BottomBorderColspanIntersections
  else
    t.style_or_default .BottomBorderIntersections

/-- Claim-side body of the bottom border: border runs over the visible
columns with one join glyph between each consecutive pair. -/
def bottomBodySpec (t : Table) (header_cont : List Bool)
    (last_row_line : Option (List String)) :
    List (Nat × Nat × ColumnDisplayInfo) → Bool → String
  | [], _ => ""
  | (p, v, info) :: rest, first =>
    (if first then "" else bottomBorderJoinSpec t header_cont last_row_line p v)
    ++ repeatStr (t.style_or_default .BottomBorder) info.width ++
    bottomBodySpec t header_cont last_row_line rest false

/-- Claim-side bottom border: corners around a body of visible-column runs
joined per `bottomBorderJoinSpec`. -/
def draw_bottom_border_spec (t : Table)
    (display_info : List ColumnDisplayInfo)
    (last_row_line : Option (List String)) : String :=
  (if should_draw_left_border t then t.style_or_default .BottomLeftCorner
   else "") ++
  bottomBodySpec t (build_colspan_continuation_map t.header
      display_info.length).1
    last_row_line (enumVisible display_info) true ++
  (if should_draw_right_border t then t.style_or_default .BottomRightCorner
   else "")

/-- Claim-side condition: every header cell has `colspan > 1` (vacuously
true without a header). -/
def headerAllColspanGt1 (t : Table) : Bool :=
  match t.header with
  | some row => row.cells.all (fun c => decide (1 < c.colspan))
  | none => true

/-- Claim-side condition for the top border, following the spec's words:
merge at the boundary left of physical column `p` iff a header colspan
crosses it, the arrangement is neither Dynamic nor DynamicFullWidth, and
not every header cell has `colspan > 1`. -/
def topBorderMergeCond (t : Table) (header_cont : List Bool) (p : Nat) :
    Bool :=
  header_cont.getD p false &&
  !(decide (t.arrangement = .Dynamic) ||
    decide (t.arrangement = .DynamicFullWidth)) &&
  !headerAllColspanGt1 t

/-- Claim-side glyph for an interior top-border join. -/
def topBorderJoinSpec (t : Table) (header_cont : List Bool) (p : Nat) :
    String :=
  if topBorderMergeCond t header_cont p then t.style_or_default .TopBorder
  else t.style_or_default .TopBorderIntersections

/-- Claim-side body of the top border. -/
def topBodySpec (t : Table) (header_cont : List Bool) :
    List (Nat × Nat × ColumnDisplayInfo) → Bool → String
  | [], _ => ""
  | (p, _, info) :: rest, first =>
    (if first then "" else topBorderJoinSpec t header_cont p) ++
    repeatStr (t.style_or_default .TopBorder) info.width ++
    topBodySpec t header_cont rest false

/-- Claim-side top border. -/
def draw_top_border_spec (t : Table)
    (display_info : List ColumnDisplayInfo) : String :=
  (if should_draw_left_border t then t.style_or_default .TopLeftCorner
   else "") ++
  topBodySpec t (build_colspan_continuation_map t.header
      display_info.length).1
    (enumVisible display_info) true ++
  (if should_draw_right_border t then t.style_or_default .TopRightCorner
   else "")

/-- The visible spanned columns of a rowspan area, clamped to the table's
column count: indices in `[start_col, start_col + colspan)` that are in
range and not hidden. -/
def spannedVisibleIdxs (display_info : List ColumnDisplayInfo)
    (start_col colspan : Nat) : List Nat :=
  (List.range' start_col colspan).filter (fun i =>
    decide (i < display_info.length) &&
    !(display_info.getD i dfltCol).is_hidden)

/-- `should_draw_top_border` (src/utils/formatting/borders.rs). -/
def should_draw_top_border (t : Table) : Bool :=
  t.style_exists .TopLeftCorner || t.style_exists .TopBorder ||
  t.style_exists .TopBorderIntersections || t.style_exists .TopRightCorner

/-- `should_draw_bottom_border` (src/utils/formatting/borders.rs). -/
def should_draw_bottom_border (t : Table) : Bool :=
  t.style_exists .BottomLeftCorner || t.style_exists .BottomBorder ||
  t.style_exists .BottomBorderIntersections ||
  t.style_exists .BottomRightCorner

/-- `should_draw_horizontal_lines` (src/utils/formatting/borders.rs). -/
def should_draw_horizontal_lines (t : Table) : Bool :=
  t.style_exists .LeftBorderIntersections ||
  t.style_exists .HorizontalLines || t.style_exists .MiddleIntersections ||
  t.style_exists .RightBorderIntersections

/-- `should_draw_vertical_lines` (src/utils/formatting/borders.rs). -/
def should_draw_vertical_lines (t : Table) : Bool :=
  t.style_exists .TopBorderIntersections ||
  t.style_exists .MiddleHeaderIntersections ||
  t.style_exists .VerticalLines || t.style_exists .MiddleIntersections ||
  t.style_exists .BottomBorderIntersections

/-- `should_draw_header` (src/utils/formatting/borders.rs). -/
def should_draw_header (t : Table) : Bool :=
  t.style_exists .LeftHeaderIntersection || t.style_exists .HeaderLines ||
  t.style_exists .MiddleHeaderIntersections ||
  t.style_exists .RightHeaderIntersection

/-- `SpanTracker::is_col_occupied_by_rowspan`. -/
def SpanTracker.is_col_occupied_by_rowspan (st : SpanTracker)
    (row_index col_index : Nat) : Bool :=
  (st.is_occupied row_index col_index).isSome

/-- `ColumnBorderInfo::default()`. -/
def dfltCBI : ColumnBorderInfo :=
  ⟨false, 0, false, none, 0, false, none, 0, false, false⟩

/-- The `while let Some(part)` loop of `embed_line`: append each part, a
vertical line before a non-empty next part (empty marks a colspan
continuation), and the right border after the last part. -/
def embedParts (t : Table) : List String → String
  | [] => ""
  | [part] => part ++ (if should_draw_right_border t then
      t.style_or_default .RightBorder else "")
  | part :: next :: rest =>
    part ++ (if next.isEmpty then ""
      else if should_draw_vertical_lines t then
        t.style_or_default .VerticalLines
      else "") ++ embedParts t (next :: rest)

/-- `embed_line`: one content line with left/right borders and vertical
lines; `row_index` and the tracker are unused, as in the source. -/
def embed_line (line_parts : List String) (t : Table) (_row_index : Nat)
    (_span_tracker : SpanTracker) : String :=
  (if should_draw_left_border t then t.style_or_default .LeftBorder else "")
    ++ embedParts t line_parts

/-- The per-column loop of `compute_column_border_info`, threading the
physical column index and the visible ordinal. -/
def computeCBIAux (st : SpanTracker) (row_index : Nat)
    (row_line : List String) (next_row_line : Option (List String)) :
    List ColumnDisplayInfo → Nat → Nat → List ColumnBorderInfo
  | [], _, _ => []
  | info :: rest, col_index, visible_col_index =>
    if info.is_hidden then
      { dfltCBI with is_hidden := info.is_hidden, width := info.width } ::
        computeCBIAux st row_index row_line next_row_line rest
          (col_index + 1) visible_col_index
    else
      let base : ColumnBorderInfo :=
        { dfltCBI with is_hidden := info.is_hidden, width := info.width }
      let withSpan :=
        match st.get_rowspan_start_at_row row_index col_index with
        | some (_, start_col, colspan) =>
          { base with
            is_rowspan_continuing := true
            rowspan_start_col := some start_col
            rowspan_colspan := colspan }
        | none =>
          match st.get_rowspan_including_row row_index col_index with
          | some (_, start_col, colspan) =>
            { base with
              is_rowspan_ending := true
              ending_rowspan_start_col := some start_col
              ending_rowspan_colspan := colspan }
          | none => base
      { withSpan with
        is_colspan_continuation :=
          decide (visible_col_index < row_line.length) &&
            (row_line.getD visible_col_index "").isEmpty
        next_row_has_colspan := (next_row_line.map (fun next =>
          decide (visible_col_index < next.length) &&
            (next.getD visible_col_index "").isEmpty)).getD false } ::
        computeCBIAux st row_index row_line next_row_line rest
          (col_index + 1) (visible_col_index + 1)

/-- `compute_column_border_info` (src/utils/formatting/borders.rs). -/
def compute_column_border_info (display_info : List ColumnDisplayInfo)
    (row_index : Nat) (span_tracker : SpanTracker) (row_line : List String)
    (next_row_line : Option (List String)) : List ColumnBorderInfo :=
  computeCBIAux span_tracker row_index row_line next_row_line display_info
    0 0

/-- The inner `while` of the normal-column case of `draw_horizontal_lines`:
count following colspan continuations (hidden columns pass through) and
accumulate the merged width, `(extra_count, extra_width)`. -/
def countColspanRun : List ColumnBorderInfo → Nat × Nat
  | [] => (0, 0)
  | next :: more =>
    if next.is_hidden then
      let r := countColspanRun more
      (r.1 + 1, r.2)
    else if next.is_colspan_continuation && !next.is_rowspan_continuing &&
        !next.is_rowspan_ending then
      let r := countColspanRun more
      (r.1 + 1, r.2 + 1 + next.width)
    else (0, 0)

/-- The `while col_idx < column_infos.len()` loop of
`draw_horizontal_lines`, with a structural fuel argument (every iteration
advances `col_idx` by at least one on the inputs the pipeline builds).
The source's `expect` on the span start column is modelled as `getD 0`,
unreachable because the flag guards it.  Arguments after the fuel:
`col_idx`, `first`, `previous_was_rowspan`, accumulated line. -/
def horizLinesLoop (display_info : List ColumnDisplayInfo)
    (column_infos : List ColumnBorderInfo) (styles : BorderStyles)
    (header : Bool) : Nat → Nat → Bool → Bool → String → String
  | 0, _, _, _, line => line
  | fuel + 1, col_idx, first, previous_was_rowspan, line =>
    match column_infos.get? col_idx with
    | none => line
    | some col =>
      if col.is_hidden then
        horizLinesLoop display_info column_infos styles header fuel
          (col_idx + 1) first previous_was_rowspan line
      else if col.is_rowspan_continuing then
        let start_col := col.rowspan_start_col.getD 0
        let r := draw_rowspan_space display_info start_col
          col.rowspan_colspan
        horizLinesLoop display_info column_infos styles header fuel
          (col_idx + r.2) false true (line ++ r.1)
      else if col.is_rowspan_ending then
        let start_col := col.ending_rowspan_start_col.getD 0
        let r := draw_ending_rowspan_border display_info column_infos
          col_idx start_col col.ending_rowspan_colspan styles first
          previous_was_rowspan header
        horizLinesLoop display_info column_infos styles header fuel
          (col_idx + r.2) false false (line ++ r.1)
      else if col.is_colspan_continuation then
        horizLinesLoop display_info column_infos styles header fuel
          (col_idx + 1) first previous_was_rowspan
          (line ++ repeatStr styles.horizontal col.width)
      else
        let run := countColspanRun (column_infos.drop (col_idx + 1))
        let line := if !first then
            line ++ styles.get_intersection
              (select_intersection_type header previous_was_rowspan
                col.next_row_has_colspan)
          else line
        horizLinesLoop display_info column_infos styles header fuel
          (col_idx + (1 + run.1)) false false
          (line ++ repeatStr styles.horizontal (col.width + run.2))

/-- `draw_horizontal_lines` (src/utils/formatting/borders.rs): the tracker
is consulted only through `compute_column_border_info`. -/
def draw_horizontal_lines (t : Table)
    (display_info : List ColumnDisplayInfo) (header : Bool)
    (row_index : Nat) (span_tracker : SpanTracker) (row_line : List String)
    (next_row_line : Option (List String)) : String :=
  let column_infos := compute_column_border_info display_info row_index
    span_tracker row_line next_row_line
  let styles := BorderStyles.for_row t header
  let start : String × Bool :=
    if should_draw_left_border t then
      let first_visible := column_infos.find? (fun c => !c.is_hidden)
      if !header && ((first_visible.map
          (fun c => c.is_rowspan_continuing)).getD false) then
        (styles.left_border, true)
      else (styles.left_intersection, false)
    else ("", false)
  let line := horizLinesLoop display_info column_infos styles header
    column_infos.length 0 true start.2 start.1
  if should_draw_right_border t then line ++ styles.right_intersection
  else line

/-- One cell of the header-rowspan registration loop of `draw_rows`
(content `none`; the alignment is irrelevant for border drawing and
modelled as the default `Top`). -/
def headerRegStep (acc : SpanTracker × Nat) (cell : Cell) :
    SpanTracker × Nat :=
  ((if 1 < cell.rowspan then
      acc.1.register_rowspan 0 acc.2 cell.rowspan cell.colspan none .Top
    else acc.1), acc.2 + cell.colspan)

/-- The header-rowspan registration block of `draw_rows`. -/
def registerHeaderSpans (t : Table) (st : SpanTracker) : SpanTracker :=
  match t.header with
  | some header => (header.cells.foldl headerRegStep (st, 0)).1
  | none => st

/-- The `while … is_col_occupied_by_rowspan` skip loop of `draw_rows`,
with a structural fuel argument (`col_index` advances every iteration, so
fuel `num_columns` never runs out). -/
def skipOccupied (st : SpanTracker) (row_index num_columns : Nat) :
    Nat → Nat → Nat
  | 0, col_index => col_index
  | fuel + 1, col_index =>
    if col_index < num_columns &&
        st.is_col_occupied_by_rowspan row_index col_index then
      skipOccupied st row_index num_columns fuel (col_index + 1)
    else col_index

/-- One cell of the data-row rowspan registration loop of `draw_rows`:
skip occupied positions, `break` (the stopped flag) past the last column,
register `rowspan > 1` cells, advance by the cell's colspan. -/
def registerRowStep (row_index num_columns : Nat)
    (acc : SpanTracker × Nat × Bool) (cell : Cell) :
    SpanTracker × Nat × Bool :=
  if acc.2.2 then acc
  else
    let col_index := skipOccupied acc.1 row_index num_columns num_columns
      acc.2.1
    if num_columns ≤ col_index then (acc.1, col_index, true)
    else
      ((if 1 < cell.rowspan then
          acc.1.register_rowspan row_index col_index cell.rowspan
            cell.colspan none .Top
        else acc.1), col_index + cell.colspan, false)

/-- The data-row rowspan registration block of `draw_rows`. -/
def registerRowSpans (row_index num_columns : Nat) (cells : List Cell)
    (st : SpanTracker) : SpanTracker :=
  (cells.foldl (registerRowStep row_index num_columns) (st, 0, false)).1

/-- `draw_rows` (src/utils/formatting/borders.rs), with the tracker
threaded explicitly: content lines for each row, the header separator or
inter-row separators, rowspan registration and `advance_row`, returning
the emitted lines and the final tracker. -/
def drawRowsFrom (t : Table) (display_info : List ColumnDisplayInfo)
    (header_rows : Nat) :
    List (List (List String)) → Nat → SpanTracker →
    List String × SpanTracker
  | [], _, st => ([], st)
  | row :: rest, row_index, st =>
    let actual_row_index := if row_index < header_rows then row_index
      else row_index - header_rows
    let content := row.map (fun line_parts =>
      embed_line line_parts t actual_row_index st)
    if row_index = 0 ∧ t.header.isSome = true then
      let sep := if should_draw_header t then
          [draw_horizontal_lines t display_info true 0 st (row.headD [])
            (rest.head?.bind (fun r => r.head?))]
        else []
      let st1 := registerHeaderSpans t st
      let r := drawRowsFrom t display_info header_rows rest (row_index + 1)
        (st1.advance_row 1)
      (content ++ sep ++ r.1, r.2)
    else
      let st1 := if actual_row_index < t.rows.length then
          registerRowSpans (actual_row_index + header_rows)
            display_info.length
            (t.rows.getD actual_row_index ⟨[]⟩).cells st
        else st
      let sep := match rest.head? with
        | some next_row =>
          if should_draw_horizontal_lines t then
            [draw_horizontal_lines t display_info false
              (actual_row_index + header_rows) st1 (row.headD [])
              next_row.head?]
          else []
        | none => []
      let r := drawRowsFrom t display_info header_rows rest (row_index + 1)
        (st1.advance_row (actual_row_index + header_rows + 1))
      (content ++ sep ++ r.1, r.2)

/-- The tracker states a `draw_rows` run passes through: at each row the
state on entry and the state after rowspan registration, plus the final
state (consulted by the bottom border).  Used to phrase the run's
no-overlap invariant. -/
def drawRowsStates (t : Table) (display_info : List ColumnDisplayInfo)
    (header_rows : Nat) :
    List (List (List String)) → Nat → SpanTracker → List SpanTracker
  | [], _, st => [st]
  | _row :: rest, row_index, st =>
    let actual_row_index := if row_index < header_rows then row_index
      else row_index - header_rows
    if row_index = 0 ∧ t.header.isSome = true then
      let st1 := registerHeaderSpans t st
      st :: st1 :: drawRowsStates t display_info header_rows rest
        (row_index + 1) (st1.advance_row 1)
    else
      let st1 := if actual_row_index < t.rows.length then
          registerRowSpans (actual_row_index + header_rows)
            display_info.length
            (t.rows.getD actual_row_index ⟨[]⟩).cells st
        else st
      st :: st1 :: drawRowsStates t display_info header_rows rest
        (row_index + 1) (st1.advance_row (actual_row_index + header_rows + 1))

/-- `draw_borders` parameterized over the initial tracker state, so that
independence from the hash-map iteration order can be stated;
`draw_borders` itself starts from the empty tracker. -/
def drawBordersFrom (t : Table) (rows : List (List (List String)))
    (display_info : List ColumnDisplayInfo) (st0 : SpanTracker) :
    List String :=
  let header_rows := if t.header.isSome then 1 else 0
  let top := if should_draw_top_border t then
      [draw_top_border t display_info]
    else []
  let r := drawRowsFrom t display_info header_rows rows 0 st0
  let bottom := if should_draw_bottom_border t then
      let last_row_line := rows.getLast?.bind (fun row => row.head?)
      let last_row_index := if rows.isEmpty then 0 else rows.length - 1
      [draw_bottom_border t display_info last_row_line r.2 last_row_index]
    else []
  top ++ r.1 ++ bottom

/-- `draw_borders` (src/utils/formatting/borders.rs): top border, rows
with separators, bottom border, starting from a fresh span tracker. -/
def draw_borders (t : Table) (rows : List (List (List String)))
    (display_info : List ColumnDisplayInfo) : List String :=
  drawBordersFrom t rows display_info SpanTracker.new

/-- The tracker states of a `draw_borders` run from a given initial
state. -/
def drawBordersStates (t : Table) (rows : List (List (List String)))
    (display_info : List ColumnDisplayInfo) (st0 : SpanTracker) :
    List SpanTracker :=
  drawRowsStates t display_info (if t.header.isSome then 1 else 0) rows 0 st0

/-- Two trackers hold the same bindings up to hash iteration order. -/
abbrev TrackerPerm (st st' : SpanTracker) : Prop :=
  st.active_spans.Perm st'.active_spans ∧
  st.ended_spans.Perm st'.ended_spans

/-- The per-state invariant of a well-formed render (data-model invariant
I2 plus the hash-map key discipline): distinct active keys, ended keys
fresh for the active map, no two distinct active spans with overlapping
column ranges, and no two distinct ended spans whose row and column
ranges both overlap. -/
abbrev TrackerOk (st : SpanTracker) : Prop :=
  (st.active_spans.map (fun e => e.1)).Nodup ∧
  (∀ e ∈ st.active_spans, ∀ f ∈ st.ended_spans, f.1 ≠ e.1) ∧
  (∀ a ∈ st.active_spans, ∀ b ∈ st.active_spans,
    a.1.2 < b.1.2 + b.2.colspan → b.1.2 < a.1.2 + a.2.colspan → a = b) ∧
  (∀ a ∈ st.ended_spans, ∀ b ∈ st.ended_spans,
    a.1.1 ≤ b.2.1 → b.1.1 ≤ a.2.1 →
    a.1.2 < b.1.2 + b.2.2 → b.1.2 < a.1.2 + a.2.2 → a = b)

theorem length_join (l : List String) :
    (String.join l).length = (l.map String.length).sum := by
  induction l with
  | nil => rfl
  | cons a l ih => simp [String.join_eq, String.length_append, ih]; rfl

theorem repeatStr_length (s : String) (n : Nat) :
    (repeatStr s n).length = n * s.length := by
  unfold repeatStr
  rw [length_join]
  simp [List.map_replicate, List.sum_replicate, smul_eq_mul]

theorem drop_take_eq_map_range' {α : Type} (dfl : α) (c : Nat) :
    ∀ (s : Nat) (l : List α), (l.drop s).take c =
      ((List.range' s c).filter (fun i => decide (i < l.length))).map
        (fun i => l.getD i dfl) := by
  induction c with
  | zero => intro s l; simp
  | succ c ih =>
    intro s l
    by_cases h : s < l.length
    · rw [List.drop_eq_getElem_cons h, List.take_succ_cons,
        List.range'_succ s c 1, List.filter_cons_of_pos (by simpa using h),
        List.map_cons, List.getD_eq_getElem l dfl h]
      congr 1
      exact ih (s + 1) l
    · rw [List.drop_eq_nil_of_le (Nat.le_of_not_lt h), List.take_nil]
      rw [List.filter_eq_nil_iff.mpr ?_, List.map_nil]
      intro i hi
      have := (List.mem_range'_1.mp hi).1
      simp only [decide_eq_true_eq]
      omega

/-- **C4.** In a horizontal separator line, a position covered by a row-span
that continues past the current row is rendered as a run of spaces whose
length is the sum of the widths of the span's visible columns plus one
separator between each adjacent pair of visible spanned columns, and the
drawing consumes exactly `colspan` columns counted from the span's start
column. -/
theorem c4_rowspan_space_width (display_info : List ColumnDisplayInfo)
    (start_col colspan : Nat) :
    (draw_rowspan_space display_info start_col colspan).2 = colspan ∧
    ((draw_rowspan_space display_info start_col colspan).1).length =
      ((spannedVisibleIdxs display_info start_col colspan).map (fun i =>
        (display_info.getD i dfltCol).width)).sum +
      ((spannedVisibleIdxs display_info start_col colspan).length - 1) := by
  constructor
  · simp [draw_rowspan_space]
  · unfold draw_rowspan_space spannedVisibleIdxs
    dsimp only
    rw [List.drop_take, Nat.add_sub_cancel_left,
      drop_take_eq_map_range' dfltCol, List.filter_map, List.filter_filter,
      List.filter_congr (fun a _ => Bool.and_comm _ _)]
    simp [List.map_map, Function.comp_def, repeatStr_length,
      show (" " : String).length = 1 from rfl]

/-- **C10.** The span-area border helpers are total even for spans whose
column range extends past the last column: `draw_rowspan_space` reads only
the columns below `start_col + colspan` (the range is clamped to the column
count), `draw_ending_rowspan_border` reads only in-range column indices,
and both report exactly `colspan` columns consumed. -/
theorem c10_span_border_helpers_safe (display_info : List ColumnDisplayInfo)
    (column_infos : List ColumnBorderInfo)
    (current_idx start_col colspan : Nat) (styles : BorderStyles)
    (first previous_was_rowspan header : Bool)
    (hsc : start_col < display_info.length) :
    (draw_rowspan_space display_info start_col colspan).2 = colspan ∧
    draw_rowspan_space display_info start_col colspan =
      draw_rowspan_space (display_info.take (start_col + colspan))
        start_col colspan ∧
    (draw_ending_rowspan_border display_info column_infos current_idx
        start_col colspan styles first previous_was_rowspan header).2 =
      colspan ∧
    ∀ i ∈ endingRowspanVisibleCols display_info start_col colspan,
      i < display_info.length := by
  refine ⟨by simp [draw_rowspan_space], ?_, ?_, ?_⟩
  · simp [draw_rowspan_space, List.take_take]
  · unfold draw_ending_rowspan_border
    split <;> exact Nat.add_sub_cancel_left start_col colspan
  · intro i hi
    unfold endingRowspanVisibleCols at hi
    have h1 := List.mem_range'_1.mp (List.mem_filter.mp hi).1
    omega

/-- Witness for C10 at a span overshooting a 2-column table. -/
theorem c10_witness :
    (0 : Nat) < 2 ∧
    ((draw_rowspan_space [⟨false, 3⟩, ⟨true, 2⟩] 0 5).2 = 5 ∧
     draw_rowspan_space [⟨false, 3⟩, ⟨true, 2⟩] 0 5 =
       draw_rowspan_space ([⟨false, 3⟩, ⟨true, 2⟩].take (0 + 5)) 0 5 ∧
     (draw_ending_rowspan_border [⟨false, 3⟩, ⟨true, 2⟩] [] 0 0 5
         ⟨"+", "|", "-", "+", "=", "+", "+"⟩ true false false).2 = 5 ∧
     ∀ i ∈ endingRowspanVisibleCols [⟨false, 3⟩, ⟨true, 2⟩] 0 5,
       i < ([⟨false, 3⟩, ⟨true, 2⟩] : List ColumnDisplayInfo).length) :=
  ⟨by decide,
   c10_span_border_helpers_safe [⟨false, 3⟩, ⟨true, 2⟩] [] 0 0 5
     ⟨"+", "|", "-", "+", "=", "+", "+"⟩ true false false (by decide)⟩

/-- **C3.** At a normal-column leading edge the intersection glyph is: for a
data-row separator after a continuing row-span, `LeftBorderIntersections`;
otherwise the merge glyph when the next row has a colspan continuation
(`BottomBorderIntersections` for data separators,
`MiddleHeaderMergeIntersection` for the header separator); otherwise
`MiddleIntersections` (data) / `MiddleHeaderIntersections` (header). -/
theorem c3_intersection_priority (t : Table)
    (header previous_was_rowspan next_row_has_colspan : Bool) :
    (BorderStyles.for_row t header).get_intersection
      (select_intersection_type header previous_was_rowspan
        next_row_has_colspan) =
    if !header && previous_was_rowspan then
      t.style_or_default .LeftBorderIntersections
    else if next_row_has_colspan then
      (if header then t.style_or_default .MiddleHeaderMergeIntersection
       else t.style_or_default .BottomBorderIntersections)
    else if header then t.style_or_default .MiddleHeaderIntersections
    else t.style_or_default .MiddleIntersections := by
  cases header <;> cases previous_was_rowspan <;>
    cases next_row_has_colspan <;> rfl

/-- **C9.** When no active span matches the queried `(start_row, col)`
position, `get_rowspan_content_offset` silently returns `0` (Top-alignment
behaviour) instead of failing. -/
theorem c9_no_span_offset_zero (st : SpanTracker)
    (start_row col_index content_height : Nat)
    (hnone : ∀ e ∈ st.active_spans,
      ¬(e.1.1 = start_row ∧ e.1.2 ≤ col_index ∧
        col_index < e.1.2 + e.2.colspan)) :
    st.get_rowspan_content_offset start_row col_index content_height = 0 := by
  unfold SpanTracker.get_rowspan_content_offset
  rw [List.find?_eq_none.mpr (fun e he => by simpa using hnone e he)]

/-- Witness for C9: the empty tracker yields offset `0`. -/
theorem c9_witness :
    SpanTracker.new.get_rowspan_content_offset 0 0 1 = 0 :=
  c9_no_span_offset_zero SpanTracker.new 0 0 1 (by intro e he; simp [SpanTracker.new] at he)

/-- **C7.** `is_occupied(row, col)` is `some` iff some active span with
`start_row < row` covers column `col` (so a span never reports its own
starting row), and the returned pair is the `(remaining_rows, colspan)` of
such a span; when no such span exists the result is `none`. -/
theorem c7_is_occupied_characterization (st : SpanTracker)
    (row_index col_index : Nat) :
    ((st.is_occupied row_index col_index).isSome ↔
      ∃ e ∈ st.active_spans, e.1.1 < row_index ∧ e.1.2 ≤ col_index ∧
        col_index < e.1.2 + e.2.colspan) ∧
    ∀ rm cs, st.is_occupied row_index col_index = some (rm, cs) →
      ∃ e ∈ st.active_spans, (e.1.1 < row_index ∧ e.1.2 ≤ col_index ∧
        col_index < e.1.2 + e.2.colspan) ∧
        rm = e.2.remaining_rows ∧ cs = e.2.colspan := by
  constructor
  · unfold SpanTracker.is_occupied
    rw [Option.isSome_map', List.find?_isSome]
    constructor
    · rintro ⟨e, he, hp⟩
      exact ⟨e, he, by simpa using hp⟩
    · rintro ⟨e, he, hp⟩
      exact ⟨e, he, by simpa using hp⟩
  · intro rm cs h
    unfold SpanTracker.is_occupied at h
    rcases Option.map_eq_some'.mp h with ⟨e, hfind, hval⟩
    refine ⟨e, List.mem_of_find?_eq_some hfind,
      by simpa using List.find?_some hfind, ?_, ?_⟩
    · exact congrArg Prod.fst hval.symm
    · exact congrArg Prod.snd hval.symm

/-- Witness for C7: a 2-wide, 3-tall span starting at `(0, 1)` occupies
`(2, 1)`. -/
theorem c7_witness :
    (SpanTracker.mk [((0, 1), ⟨0, 3, 2, 2, none, .Top⟩)] []).is_occupied
      2 1 |>.isSome :=
  (c7_is_occupied_characterization
      (SpanTracker.mk [((0, 1), ⟨0, 3, 2, 2, none, .Top⟩)] []) 2 1).1.mpr
    ⟨((0, 1), ⟨0, 3, 2, 2, none, .Top⟩), by decide, by decide⟩

/-- **C6.** For a span registered at `(start_row, start_col)` with original
rowspan `rowspan` and content height at most `rowspan`,
`get_rowspan_content_offset` at any column of the span's colspan range
returns `0` for Top, `(rowspan - content_height) / 2` for Middle and
`rowspan - content_height` for Bottom. -/
theorem c6_registered_offset
    (start_row start_col rowspan colspan col_index content_height : Nat)
    (content : Option (List String)) (va : VerticalAlignment)
    (h1 : 1 < rowspan) (h2 : content_height ≤ rowspan)
    (h3 : start_col ≤ col_index) (h4 : col_index < start_col + colspan) :
    (SpanTracker.new.register_rowspan start_row start_col rowspan colspan
        content va).get_rowspan_content_offset start_row col_index
      content_height =
    match va with
    | .Top => 0
    | .Middle => (rowspan - content_height) / 2
    | .Bottom => rowspan - content_height := by
  unfold SpanTracker.register_rowspan SpanTracker.new insertAssoc
  rw [if_pos h1]
  simp only [List.any_nil, if_neg Bool.false_ne_true, List.nil_append]
  unfold SpanTracker.get_rowspan_content_offset
  rw [List.find?_cons_of_pos _ (by simp [h3, h4])]

/-- Witness for C6: a 3-row Middle-aligned span with 1 line of content
starts its content at offset `(3 - 1) / 2 = 1`. -/
theorem c6_witness :
    (SpanTracker.new.register_rowspan 0 1 3 2 none
        .Middle).get_rowspan_content_offset 0 2 1 = 1 :=
  c6_registered_offset 0 1 3 2 2 1 none .Middle (by decide) (by decide)
    (by decide) (by decide)

theorem advanceFold_split (expired : List ((Nat × Nat) × (Nat × Nat)))
    (st : SpanTracker) :
    expired.foldl (fun acc ev =>
      { acc with
        ended_spans := insertAssoc ev.1 ev.2 acc.ended_spans
        active_spans := acc.active_spans.filter
          (fun e => !(decide (e.1 = ev.1))) }) st =
    ⟨expired.foldl (fun l ev => l.filter (fun e => !(decide (e.1 = ev.1))))
        st.active_spans,
      expired.foldl (fun l ev => insertAssoc ev.1 ev.2 l)
        st.ended_spans⟩ := by
  induction expired generalizing st with
  | nil => rfl
  | cons ev rest ih =>
    simp only [List.foldl_cons]
    rw [ih]

theorem foldl_removeKey (ks : List ((Nat × Nat) × (Nat × Nat)))
    (l : List ((Nat × Nat) × RowSpanInfo)) :
    ks.foldl (fun acc ev => acc.filter (fun e => !(decide (e.1 = ev.1)))) l =
    l.filter (fun e => !(ks.any (fun ev => decide (e.1 = ev.1)))) := by
  induction ks generalizing l with
  | nil => simp
  | cons k ks ih =>
    simp only [List.foldl_cons, List.any_cons]
    rw [ih, List.filter_filter]
    apply List.filter_congr
    intro a _
    cases h : decide (a.1 = k.1) <;> simp [h]

theorem insertAssoc_append {β : Type} (k : Nat × Nat) (v : β)
    (l : List ((Nat × Nat) × β)) (h : ∀ e ∈ l, e.1 ≠ k) :
    insertAssoc k v l = l ++ [(k, v)] := by
  unfold insertAssoc
  rw [if_neg]
  simp only [List.any_eq_true, decide_eq_true_eq]
  rintro ⟨e, he, hk⟩
  exact h e he hk

theorem foldl_insertAssoc {β : Type} (ex : List ((Nat × Nat) × β)) :
    ∀ (en : List ((Nat × Nat) × β)),
    (ex.map (fun e => e.1)).Nodup →
    (∀ e ∈ ex, ∀ f ∈ en, f.1 ≠ e.1) →
    ex.foldl (fun l ev => insertAssoc ev.1 ev.2 l) en = en ++ ex := by
  induction ex with
  | nil => intro en _ _; simp
  | cons e rest ih =>
    intro en hnd hdisj
    rw [List.map_cons] at hnd
    have hnd' := List.nodup_cons.mp hnd
    simp only [List.foldl_cons]
    rw [insertAssoc_append e.1 e.2 en
      (fun f hf => hdisj e (List.mem_cons_self e rest) f hf)]
    have step : en ++ [(e.1, e.2)] = en ++ [e] := by simp
    rw [step, ih (en ++ [e]) hnd'.2 ?_]
    · simp
    · intro g hg f hf
      rcases List.mem_append.mp hf with hf | hf
      · exact hdisj g (List.mem_cons_of_mem _ hg) f hf
      · have : f = e := by simpa using hf
        subst this
        intro hfe
        exact hnd'.1 (by rw [hfe]; exact List.mem_map_of_mem (fun x => x.1) hg)

theorem filter_expired_keys (l : List ((Nat × Nat) × RowSpanInfo))
    (hnd : (l.map (fun e => e.1)).Nodup) :
    l.filter (fun e =>
      !(((l.filter (fun e => decide (e.2.remaining_rows = 0))).map
          (fun e => (e.1, (e.2.start_row + e.2.original_rowspan - 1,
            e.2.colspan)))).any (fun ev => decide (e.1 = ev.1)))) =
    l.filter (fun e => !(decide (e.2.remaining_rows = 0))) := by
  apply List.filter_congr
  intro a ha
  congr 1
  by_cases h : a.2.remaining_rows = 0
  · rw [decide_eq_true h]
    rw [List.any_eq_true]
    refine ⟨(a.1, (a.2.start_row + a.2.original_rowspan - 1, a.2.colspan)),
      List.mem_map_of_mem _ (List.mem_filter.mpr ⟨ha, decide_eq_true h⟩), ?_⟩
    simp
  · rw [decide_eq_false h]
    rw [List.any_eq_false]
    rintro ev hev
    rcases List.mem_map.mp hev with ⟨b, hb, rfl⟩
    have hbl := List.mem_filter.mp hb
    simp only [decide_eq_true_eq]
    intro hab
    have : a = b := List.inj_on_of_nodup_map hnd ha hbl.1 hab
    exact h (by rw [this]; exact of_decide_eq_true hbl.2)

/-- Extensional characterization of `advance_row` under the hash-map key
invariants; shared by the C5 claim theorem and the order-independence
development. -/
theorem advance_row_characterization (st : SpanTracker) (current_row : Nat)
    (hnd : (st.active_spans.map (fun e => e.1)).Nodup)
    (hdisj : ∀ e ∈ st.active_spans, e.2.remaining_rows = 0 →
      ∀ f ∈ st.ended_spans, f.1 ≠ e.1) :
    st.advance_row current_row =
    ⟨(st.active_spans.filter
        (fun e => !(decide (e.2.remaining_rows = 0)))).map
        (fun e => if e.2.start_row < current_row then
          (e.1, { e.2 with remaining_rows := e.2.remaining_rows - 1 })
        else e),
      st.ended_spans ++ (st.active_spans.filter
          (fun e => decide (e.2.remaining_rows = 0))).map
        (fun e => (e.1, (e.2.start_row + e.2.original_rowspan - 1,
          e.2.colspan)))⟩ := by
  unfold SpanTracker.advance_row
  dsimp only
  rw [advanceFold_split, foldl_removeKey]
  have hexnd : (((st.active_spans.filter
      (fun e => decide (e.2.remaining_rows = 0))).map
      (fun e => (e.1, (e.2.start_row + e.2.original_rowspan - 1,
        e.2.colspan)))).map (fun e => e.1)).Nodup := by
    rw [List.map_map]
    exact List.Nodup.sublist
      (List.Sublist.map (fun (e : (Nat × Nat) × RowSpanInfo) => e.1)
        (List.filter_sublist st.active_spans)) hnd
  have hexdisj : ∀ e ∈ (st.active_spans.filter
      (fun e => decide (e.2.remaining_rows = 0))).map
      (fun e => (e.1, (e.2.start_row + e.2.original_rowspan - 1,
        e.2.colspan))), ∀ f ∈ st.ended_spans, f.1 ≠ e.1 := by
    rintro e he f hf
    rcases List.mem_map.mp he with ⟨b, hb, rfl⟩
    have hbl := List.mem_filter.mp hb
    exact hdisj b hbl.1 (of_decide_eq_true hbl.2) f hf
  rw [foldl_insertAssoc _ _ hexnd hexdisj,
    filter_expired_keys st.active_spans hnd]
  congr 1
  apply List.map_congr_left
  intro a ha
  have hrem : a.2.remaining_rows ≠ 0 := by
    have := (List.mem_filter.mp ha).2
    simpa using this
  by_cases hlt : a.2.start_row < current_row
  · rw [if_pos ⟨hlt, Nat.pos_of_ne_zero hrem⟩, if_pos hlt]
  · rw [if_neg (fun hc => hlt hc.1), if_neg hlt]

/-- **C5.** `advance_row(current_row)` first moves every active span with
`remaining_rows == 0` into the ended map as
`(start_row, start_col) ↦ (start_row + original_rowspan - 1, colspan)`,
removing it from the active map, then decrements `remaining_rows` on every
remaining active span whose `start_row < current_row`, and changes nothing
else.  The hypotheses state the hash-map invariants: distinct keys in the
active map, and expired keys not already present in the ended map. -/
theorem c5_advance_row (st : SpanTracker) (current_row : Nat)
    (hnd : (st.active_spans.map (fun e => e.1)).Nodup)
    (hdisj : ∀ e ∈ st.active_spans, e.2.remaining_rows = 0 →
      ∀ f ∈ st.ended_spans, f.1 ≠ e.1) :
    st.advance_row current_row =
    ⟨(st.active_spans.filter
        (fun e => !(decide (e.2.remaining_rows = 0)))).map
        (fun e => if e.2.start_row < current_row then
          (e.1, { e.2 with remaining_rows := e.2.remaining_rows - 1 })
        else e),
      st.ended_spans ++ (st.active_spans.filter
          (fun e => decide (e.2.remaining_rows = 0))).map
        (fun e => (e.1, (e.2.start_row + e.2.original_rowspan - 1,
          e.2.colspan)))⟩ :=
  advance_row_characterization st current_row hnd hdisj

/-- Witness for C5: a tracker with one expired span, one continuing span
started earlier, and one span starting at the current row. -/
theorem c5_witness :
    (SpanTracker.mk
        [((0, 0), ⟨0, 2, 0, 1, none, .Top⟩),
         ((1, 1), ⟨1, 3, 1, 2, none, .Top⟩),
         ((2, 2), ⟨2, 2, 1, 1, none, .Top⟩)] []).advance_row 2 =
    ⟨([((0, 0), ⟨0, 2, 0, 1, none, .Top⟩),
       ((1, 1), ⟨1, 3, 1, 2, none, .Top⟩),
       ((2, 2), (⟨2, 2, 1, 1, none, .Top⟩ : RowSpanInfo))].filter
        (fun e => !(decide (e.2.remaining_rows = 0)))).map
        (fun e => if e.2.start_row < 2 then
          (e.1, { e.2 with remaining_rows := e.2.remaining_rows - 1 })
        else e),
      [] ++ ([((0, 0), ⟨0, 2, 0, 1, none, .Top⟩),
        ((1, 1), ⟨1, 3, 1, 2, none, .Top⟩),
        ((2, 2), (⟨2, 2, 1, 1, none, .Top⟩ : RowSpanInfo))].filter
          (fun e => decide (e.2.remaining_rows = 0))).map
        (fun e => (e.1, (e.2.start_row + e.2.original_rowspan - 1,
          e.2.colspan)))⟩ :=
  c5_advance_row
    (SpanTracker.mk
      [((0, 0), ⟨0, 2, 0, 1, none, .Top⟩),
       ((1, 1), ⟨1, 3, 1, 2, none, .Top⟩),
       ((2, 2), ⟨2, 2, 1, 1, none, .Top⟩)] []) 2
    (by decide) (by decide)

theorem find?_perm_of_unique {α : Type} (p : α → Bool) {l l' : List α}
    (hperm : l.Perm l')
    (hu : ∀ a ∈ l, ∀ b ∈ l, p a → p b → a = b) :
    l.find? p = l'.find? p := by
  cases h : l.find? p with
  | none =>
    symm
    rw [List.find?_eq_none] at h ⊢
    intro x hx
    exact h x (hperm.mem_iff.mpr hx)
  | some a =>
    have ha := List.mem_of_find?_eq_some h
    have hpa := List.find?_some h
    cases h' : l'.find? p with
    | none =>
      rw [List.find?_eq_none] at h'
      exact absurd hpa (h' a (hperm.mem_iff.mp ha))
    | some b =>
      have hb := hperm.mem_iff.mpr (List.mem_of_find?_eq_some h')
      have hpb := List.find?_some h'
      rw [hu a ha b hb hpa hpb]

theorem perm_any {α : Type} (p : α → Bool) {l l' : List α}
    (h : l.Perm l') : l.any p = l'.any p := by
  cases ha : l.any p with
  | true =>
    rcases List.any_eq_true.mp ha with ⟨x, hx, hpx⟩
    exact (List.any_eq_true.mpr ⟨x, h.mem_iff.mp hx, hpx⟩).symm
  | false =>
    rw [List.any_eq_false] at ha
    exact ((List.any_eq_false).mpr
      (fun x hx => ha x (h.mem_iff.mpr hx))).symm

theorem insertAssoc_perm {β : Type} (k : Nat × Nat) (v : β)
    {l l' : List ((Nat × Nat) × β)} (h : l.Perm l') :
    (insertAssoc k v l).Perm (insertAssoc k v l') := by
  unfold insertAssoc
  rw [perm_any (fun e => decide (e.1 = k)) h]
  by_cases hk : l'.any (fun e => decide (e.1 = k)) = true
  · rw [if_pos hk, if_pos hk]
    exact h.map _
  · rw [if_neg hk, if_neg hk]
    exact h.append_right _

theorem register_rowspan_perm {st st' : SpanTracker}
    (h : TrackerPerm st st') (row col rowspan colspan : Nat)
    (content : Option (List String)) (va : VerticalAlignment) :
    TrackerPerm (st.register_rowspan row col rowspan colspan content va)
      (st'.register_rowspan row col rowspan colspan content va) := by
  unfold SpanTracker.register_rowspan
  by_cases hr : 1 < rowspan
  · rw [if_pos hr, if_pos hr]
    exact ⟨insertAssoc_perm _ _ h.1, h.2⟩
  · rw [if_neg hr, if_neg hr]
    exact h

theorem occ_eq_of_subset {base : SpanTracker}
    (hA : ∀ a ∈ base.active_spans, ∀ b ∈ base.active_spans,
      a.1.2 < b.1.2 + b.2.colspan → b.1.2 < a.1.2 + a.2.colspan → a = b)
    (row : Nat) {st st' : SpanTracker} (hp : TrackerPerm st st')
    (hsub : ∀ e ∈ st.active_spans, e ∈ base.active_spans ∨ e.1.1 = row) :
    ∀ col, st.is_occupied row col = st'.is_occupied row col := by
  intro col
  unfold SpanTracker.is_occupied
  rw [find?_perm_of_unique _ hp.1 ?_]
  intro a ha b hb hpa hpb
  have pa := of_decide_eq_true hpa
  have pb := of_decide_eq_true hpb
  have hma : a ∈ base.active_spans := by
    rcases hsub a ha with hm | hm
    · exact hm
    · exact absurd pa.1 (by omega)
  have hmb : b ∈ base.active_spans := by
    rcases hsub b hb with hm | hm
    · exact hm
    · exact absurd pb.1 (by omega)
  exact hA a hma b hmb (by omega) (by omega)

theorem occ_lookup_eq {st st' : SpanTracker} (hp : TrackerPerm st st')
    (hA : ∀ a ∈ st.active_spans, ∀ b ∈ st.active_spans,
      a.1.2 < b.1.2 + b.2.colspan → b.1.2 < a.1.2 + a.2.colspan → a = b)
    (row col : Nat) :
    st.is_occupied row col = st'.is_occupied row col :=
  occ_eq_of_subset hA row hp (fun e he => Or.inl he) col

theorem at_row_lookup_eq {st st' : SpanTracker} (hp : TrackerPerm st st')
    (hA : ∀ a ∈ st.active_spans, ∀ b ∈ st.active_spans,
      a.1.2 < b.1.2 + b.2.colspan → b.1.2 < a.1.2 + a.2.colspan → a = b)
    (row col : Nat) :
    st.get_rowspan_start_at_row row col =
      st'.get_rowspan_start_at_row row col := by
  unfold SpanTracker.get_rowspan_start_at_row
  rw [find?_perm_of_unique _ hp.1 ?_]
  intro a ha b hb hpa hpb
  have pa := of_decide_eq_true hpa
  have pb := of_decide_eq_true hpb
  exact hA a ha b hb (by omega) (by omega)

theorem incl_lookup_eq {st st' : SpanTracker} (hp : TrackerPerm st st')
    (hA : ∀ a ∈ st.active_spans, ∀ b ∈ st.active_spans,
      a.1.2 < b.1.2 + b.2.colspan → b.1.2 < a.1.2 + a.2.colspan → a = b)
    (row col : Nat) :
    st.get_rowspan_including_row row col =
      st'.get_rowspan_including_row row col := by
  unfold SpanTracker.get_rowspan_including_row
  rw [find?_perm_of_unique _ hp.1 ?_]
  intro a ha b hb hpa hpb
  have pa := of_decide_eq_true hpa
  have pb := of_decide_eq_true hpb
  exact hA a ha b hb (by omega) (by omega)

theorem last_lookup_eq {st st' : SpanTracker} (hp : TrackerPerm st st')
    (hok : TrackerOk st) (row col : Nat) :
    st.get_rowspan_at_last_row row col =
      st'.get_rowspan_at_last_row row col := by
  unfold SpanTracker.get_rowspan_at_last_row
  rw [incl_lookup_eq hp hok.2.2.1 row col]
  rw [find?_perm_of_unique _ hp.2 ?_]
  intro a ha b hb hpa hpb
  have pa := of_decide_eq_true hpa
  have pb := of_decide_eq_true hpb
  exact hok.2.2.2 a ha b hb (by omega) (by omega) (by omega) (by omega)

/-- The cells of a table's header (empty without a header). -/
def headerCells (t : Table) : List Cell :=
  match t.header with
  | some row => row.cells
  | none => []

theorem markContinuations_length (cont : List Bool)
    (col_index colspan : Nat) :
    (markContinuations cont col_index colspan).length = cont.length := by
  unfold markContinuations
  generalize List.range (colspan - 1) = l
  induction l generalizing cont with
  | nil => rfl
  | cons i l ih =>
    simp only [List.foldl_cons]
    rw [ih]
    split <;> simp

theorem buildColspan_fold_length (cells : List Cell) :
    ∀ st : Nat × List Bool × Bool,
    ((cells.foldl buildColspanStep st).2.1).length = st.2.1.length := by
  induction cells with
  | nil => intro st; rfl
  | cons c cells ih =>
    intro st
    rw [List.foldl_cons, ih]
    simp [buildColspanStep, markContinuations_length]

theorem build_map_length (h : Option Row) (n : Nat) :
    (build_colspan_continuation_map h n).1.length = n := by
  cases h with
  | none => simp [build_colspan_continuation_map]
  | some row =>
    unfold build_colspan_continuation_map
    dsimp only
    rw [buildColspan_fold_length]
    simp

theorem buildColspan_fold_allHave (cells : List Cell) :
    ∀ st : Nat × List Bool × Bool,
    (cells.foldl buildColspanStep st).2.2 =
      (st.2.2 && cells.all (fun c => !(decide (c.colspan = 1)))) := by
  induction cells with
  | nil => intro st; simp
  | cons c cells ih =>
    intro st
    rw [List.foldl_cons, ih]
    simp only [List.all_cons, buildColspanStep]
    by_cases h : c.colspan = 1
    · simp [h]
    · simp [h, Bool.and_assoc]

theorem all_congr_list {α : Type} (p q : α → Bool) :
    ∀ l : List α, (∀ a ∈ l, p a = q a) → l.all p = l.all q
  | [], _ => rfl
  | a :: l, h => by
    rw [List.all_cons, List.all_cons, h a (List.mem_cons_self a l),
      all_congr_list p q l (fun b hb => h b (List.mem_cons_of_mem a hb))]

theorem getD_replicate_false (n p : Nat) :
    (List.replicate n false).getD p false = false := by
  by_cases h : p < n
  · rw [List.getD_eq_getElem _ _ (by simpa using h)]
    simp
  · rw [List.getD_eq_default _ _ (by simpa using Nat.le_of_not_lt h)]

theorem guard_getD (cont : List Bool) (p : Nat) :
    (decide (p < cont.length) && cont.getD p false) = cont.getD p false := by
  by_cases h : p < cont.length
  · simp [h]
  · have hn : cont[p]? = none := List.getElem?_eq_none (Nat.le_of_not_lt h)
    simp [h, hn]

theorem topJoinCond_eq (t : Table) (display_info : List ColumnDisplayInfo)
    (hcs : ∀ c ∈ headerCells t, 1 ≤ c.colspan) (p : Nat) :
    ((!(build_colspan_continuation_map t.header display_info.length).2 &&
      !(decide (t.arrangement = .Dynamic) ||
        decide (t.arrangement = .DynamicFullWidth))) &&
     (decide (p < (build_colspan_continuation_map t.header
         display_info.length).1.length) &&
      (build_colspan_continuation_map t.header
          display_info.length).1.getD p false)) =
    topBorderMergeCond t
      (build_colspan_continuation_map t.header display_info.length).1 p := by
  rw [guard_getD]
  unfold topBorderMergeCond headerAllColspanGt1
  cases hh : t.header with
  | none =>
    simp [build_colspan_continuation_map, getD_replicate_false]
  | some row =>
    dsimp only
    have hall : (build_colspan_continuation_map (some row)
        display_info.length).2 =
        row.cells.all (fun c => !(decide (c.colspan = 1))) := by
      unfold build_colspan_continuation_map
      dsimp only
      rw [buildColspan_fold_allHave]
      simp
    rw [hall]
    have hgt : row.cells.all (fun c => !(decide (c.colspan = 1))) =
        row.cells.all (fun c => decide (1 < c.colspan)) := by
      apply all_congr_list
      intro c hc
      have h1 : 1 ≤ c.colspan := by
        apply hcs
        unfold headerCells
        rw [hh]
        exact hc
      by_cases h : c.colspan = 1
      · simp [h]
      · have : 1 < c.colspan := by omega
        simp [h, this]
    rw [hgt]
    generalize (build_colspan_continuation_map (some row)
        display_info.length).1.getD p false = C
    generalize row.cells.all (fun c => decide (1 < c.colspan)) = G
    generalize (decide (t.arrangement = ContentArrangement.Dynamic) ||
      decide (t.arrangement = ContentArrangement.DynamicFullWidth)) = D
    cases C <;> cases G <;> cases D <;> rfl

theorem topBorderAux_eq_spec (t : Table) (cont : List Bool) (sm : Bool)
    (hj : ∀ q, (if sm && (decide (q < cont.length) && cont.getD q false)
        then t.style_or_default .TopBorder
        else t.style_or_default .TopBorderIntersections) =
      topBorderJoinSpec t cont q) :
    ∀ (ds : List ColumnDisplayInfo) (p v : Nat) (first : Bool),
    topBorderAux (t.style_or_default .TopBorder)
        (t.style_or_default .TopBorderIntersections) cont sm ds p first =
    topBodySpec t cont (enumVisibleAux ds p v) first := by
  intro ds
  induction ds with
  | nil => intro p v first; rfl
  | cons info rest ih =>
    intro p v first
    cases hb : info.is_hidden with
    | true =>
      simp only [topBorderAux, enumVisibleAux, hb, Bool.not_true,
        Bool.false_eq_true, if_false, if_true]
      exact ih (p + 1) v first
    | false =>
      simp only [topBorderAux, enumVisibleAux, hb, Bool.not_false,
        Bool.false_eq_true, if_false, if_true, topBodySpec]
      rw [ih (p + 1) (v + 1) false]
      cases first <;> rw [hj p] <;> simp

/-- **C2.** The top border places the `TopBorderIntersections` glyph between
every pair of consecutive visible columns, except where a header colspan
crosses the boundary, the arrangement is neither Dynamic nor
DynamicFullWidth, and not every header cell has `colspan > 1`; there the
`TopBorder` glyph is emitted instead.  The hypothesis is the data-model
invariant `colspan ≥ 1` for header cells. -/
theorem c2_top_border_merges (t : Table)
    (display_info : List ColumnDisplayInfo)
    (hcs : ∀ c ∈ headerCells t, 1 ≤ c.colspan) :
    draw_top_border t display_info = draw_top_border_spec t display_info := by
  unfold draw_top_border draw_top_border_spec
  dsimp only
  rw [topBorderAux_eq_spec t
    (build_colspan_continuation_map t.header display_info.length).1
    (!(build_colspan_continuation_map t.header display_info.length).2 &&
      !(decide (t.arrangement = .Dynamic) ||
        decide (t.arrangement = .DynamicFullWidth)))
    (fun q => by rw [topJoinCond_eq t display_info hcs q]; rfl)
    display_info 0 0 true]
  by_cases hl : should_draw_left_border t <;>
    by_cases hr : should_draw_right_border t <;>
      simp [hl, hr, enumVisible, String.append_assoc]

/-- Witness for C2: a 3-column table whose header has a 2-colspan first
cell and a normal second cell, Disabled arrangement. -/
theorem c2_witness :
    (∀ c ∈ headerCells
      ⟨some ⟨[⟨2, 1⟩, ⟨1, 1⟩]⟩, [⟨[⟨1, 1⟩, ⟨1, 1⟩, ⟨1, 1⟩]⟩],
        .Disabled, fun _ => some "+"⟩, 1 ≤ c.colspan) ∧
    draw_top_border
      ⟨some ⟨[⟨2, 1⟩, ⟨1, 1⟩]⟩, [⟨[⟨1, 1⟩, ⟨1, 1⟩, ⟨1, 1⟩]⟩],
        .Disabled, fun _ => some "+"⟩
      [⟨false, 1⟩, ⟨false, 1⟩, ⟨false, 1⟩] =
    draw_top_border_spec
      ⟨some ⟨[⟨2, 1⟩, ⟨1, 1⟩]⟩, [⟨[⟨1, 1⟩, ⟨1, 1⟩, ⟨1, 1⟩]⟩],
        .Disabled, fun _ => some "+"⟩
      [⟨false, 1⟩, ⟨false, 1⟩, ⟨false, 1⟩] :=
  ⟨by decide,
   c2_top_border_merges
    ⟨some ⟨[⟨2, 1⟩, ⟨1, 1⟩]⟩, [⟨[⟨1, 1⟩, ⟨1, 1⟩, ⟨1, 1⟩]⟩],
      .Disabled, fun _ => some "+"⟩
    [⟨false, 1⟩, ⟨false, 1⟩, ⟨false, 1⟩] (by decide)⟩

theorem bottomBorderLoop_eq_spec (t : Table)
    (display_info : List ColumnDisplayInfo) (header_cont : List Bool)
    (last_row_line : Option (List String)) (st : SpanTracker)
    (last_row_index : Nat)
    (hspan : ∀ c, st.get_rowspan_at_last_row last_row_index c = none) :
    ∀ (fuel col_index visible_col_index : Nat) (first : Bool)
      (line : String), display_info.length ≤ fuel + col_index →
    bottomBorderLoop t display_info header_cont last_row_line st
      last_row_index fuel col_index visible_col_index first line =
    line ++ bottomBodySpec t header_cont last_row_line
      (enumVisibleAux (display_info.drop col_index) col_index
        visible_col_index) first := by
  intro fuel
  induction fuel with
  | zero =>
    intro ci vi first line hle
    have hnil : display_info.drop ci = [] :=
      List.drop_eq_nil_of_le (by omega)
    rw [hnil]
    simp [bottomBorderLoop, enumVisibleAux, bottomBodySpec]
  | succ fuel ih =>
    intro ci vi first line hle
    by_cases hci : ci < display_info.length
    · rw [List.drop_eq_getElem_cons hci]
      simp only [bottomBorderLoop]
      rw [dif_pos hci]
      cases hh : display_info[ci].is_hidden with
      | true =>
        simp only [List.get_eq_getElem, hh, if_true, enumVisibleAux]
        exact ih (ci + 1) vi first line (by omega)
      | false =>
        simp only [List.get_eq_getElem, hh, Bool.false_eq_true, if_false,
          enumVisibleAux, hspan ci]
        rw [ih (ci + 1) (vi + 1) false _ (by omega)]
        simp only [bottomBodySpec]
        rw [guard_getD]
        have hline : (if !first then
            (if lastRowColspanAt last_row_line vi &&
                (header_cont.getD ci false || decide (t.rows.length ≤ 2))
              then line ++ t.style_or_default .BottomBorderColspanIntersections
              else line ++ t.style_or_default .BottomBorderIntersections)
            else line) =
            line ++ (if first then ""
              else bottomBorderJoinSpec t header_cont last_row_line ci vi) := by
          cases first
          · unfold bottomBorderJoinSpec bottomBorderMergeCond
            cases hcond : lastRowColspanAt last_row_line vi &&
                (header_cont.getD ci false ||
                  decide (t.rows.length ≤ 2)) <;> simp
          · simp
        rw [hline]
        simp [String.append_assoc]
    · have hnil : display_info.drop ci = [] :=
        List.drop_eq_nil_of_le (Nat.le_of_not_lt hci)
      rw [hnil]
      simp only [bottomBorderLoop]
      rw [dif_neg hci]
      simp [enumVisibleAux, bottomBodySpec]

/-- **C1.** In the bottom border (when no row-span reaches the last row),
the interior join right of each visible column is the merge glyph iff the
last data row has a colspan continuation there and (the header also has
one there or the table has at most 2 data rows); otherwise it is the
`BottomBorderIntersections` glyph. -/
theorem c1_bottom_border_merges (t : Table)
    (display_info : List ColumnDisplayInfo)
    (last_row_line : Option (List String)) (st : SpanTracker)
    (last_row_index : Nat)
    (hspan : ∀ c, st.get_rowspan_at_last_row last_row_index c = none) :
    draw_bottom_border t display_info last_row_line st last_row_index =
    draw_bottom_border_spec t display_info last_row_line := by
  unfold draw_bottom_border draw_bottom_border_spec
  dsimp only
  rw [bottomBorderLoop_eq_spec t display_info _ last_row_line st
    last_row_index hspan display_info.length 0 0 true _ (by omega)]
  rw [List.drop_zero]
  by_cases hl : should_draw_left_border t <;>
    by_cases hr : should_draw_right_border t <;>
      simp [hl, hr, enumVisible, String.append_assoc]

/-- Witness for C1: a two-column, two-data-row table whose last row starts
with a 2-colspan cell (empty-string marker), no rowspans. -/
theorem c1_witness :
    SpanTracker.new.get_rowspan_at_last_row 1 0 = none ∧
    draw_bottom_border
      ⟨some ⟨[⟨1, 1⟩, ⟨1, 1⟩]⟩, [⟨[⟨1, 1⟩, ⟨1, 1⟩]⟩, ⟨[⟨2, 1⟩]⟩],
        .Disabled, fun _ => some "+"⟩
      [⟨false, 1⟩, ⟨false, 1⟩] (some ["x", ""]) SpanTracker.new 1 =
    draw_bottom_border_spec
      ⟨some ⟨[⟨1, 1⟩, ⟨1, 1⟩]⟩, [⟨[⟨1, 1⟩, ⟨1, 1⟩]⟩, ⟨[⟨2, 1⟩]⟩],
        .Disabled, fun _ => some "+"⟩
      [⟨false, 1⟩, ⟨false, 1⟩] (some ["x", ""]) :=
  ⟨rfl,
   c1_bottom_border_merges
    ⟨some ⟨[⟨1, 1⟩, ⟨1, 1⟩]⟩, [⟨[⟨1, 1⟩, ⟨1, 1⟩]⟩, ⟨[⟨2, 1⟩]⟩],
      .Disabled, fun _ => some "+"⟩
    [⟨false, 1⟩, ⟨false, 1⟩] (some ["x", ""]) SpanTracker.new 1
    (fun c => rfl)⟩

theorem embed_line_tracker_irrelevant (line_parts : List String)
    (t : Table) (row_index : Nat) (st st' : SpanTracker) :
    embed_line line_parts t row_index st =
      embed_line line_parts t row_index st' := rfl

theorem computeCBIAux_eq {st st' : SpanTracker} (row_index : Nat)
    (row_line : List String) (next_row_line : Option (List String))
    (hat : ∀ c, st.get_rowspan_start_at_row row_index c =
      st'.get_rowspan_start_at_row row_index c)
    (hincl : ∀ c, st.get_rowspan_including_row row_index c =
      st'.get_rowspan_including_row row_index c) :
    ∀ (ds : List ColumnDisplayInfo) (p v : Nat),
    computeCBIAux st row_index row_line next_row_line ds p v =
    computeCBIAux st' row_index row_line next_row_line ds p v := by
  intro ds
  induction ds with
  | nil => intro p v; rfl
  | cons info rest ih =>
    intro p v
    simp only [computeCBIAux, hat p, hincl p, ih]

theorem draw_horizontal_lines_ok_eq (t : Table)
    (display_info : List ColumnDisplayInfo) (header : Bool)
    (row_index : Nat) {st st' : SpanTracker} (hp : TrackerPerm st st')
    (hok : TrackerOk st) (row_line : List String)
    (next_row_line : Option (List String)) :
    draw_horizontal_lines t display_info header row_index st row_line
      next_row_line =
    draw_horizontal_lines t display_info header row_index st' row_line
      next_row_line := by
  unfold draw_horizontal_lines compute_column_border_info
  rw [computeCBIAux_eq row_index row_line next_row_line
    (fun c => at_row_lookup_eq hp hok.2.2.1 row_index c)
    (fun c => incl_lookup_eq hp hok.2.2.1 row_index c) display_info 0 0]

theorem skipOccupied_eq {st st' : SpanTracker} (row_index num_columns : Nat)
    (hocc : ∀ c, st.is_occupied row_index c = st'.is_occupied row_index c) :
    ∀ fuel col, skipOccupied st row_index num_columns fuel col =
      skipOccupied st' row_index num_columns fuel col := by
  intro fuel
  induction fuel with
  | zero => intro col; rfl
  | succ fuel ih =>
    intro col
    simp only [skipOccupied, SpanTracker.is_col_occupied_by_rowspan,
      hocc col, ih]

theorem register_subset {base : SpanTracker} {row : Nat}
    {st : SpanTracker}
    (hsub : ∀ e ∈ st.active_spans, e ∈ base.active_spans ∨ e.1.1 = row)
    (col rowspan colspan : Nat) (content : Option (List String))
    (va : VerticalAlignment) :
    ∀ e ∈ (st.register_rowspan row col rowspan colspan
        content va).active_spans,
      e ∈ base.active_spans ∨ e.1.1 = row := by
  intro e he
  unfold SpanTracker.register_rowspan at he
  by_cases hr : 1 < rowspan
  · rw [if_pos hr] at he
    unfold insertAssoc at he
    by_cases hk : st.active_spans.any
        (fun x => decide (x.1 = (row, col))) = true
    · rw [if_pos hk] at he
      rcases List.mem_map.mp he with ⟨x, hx, rfl⟩
      by_cases hxk : x.1 = (row, col)
      · rw [if_pos hxk]
        exact Or.inr rfl
      · rw [if_neg hxk]
        exact hsub x hx
    · rw [if_neg hk] at he
      rcases List.mem_append.mp he with hm | hm
      · exact hsub e hm
      · have : e = ((row, col), _) := List.mem_singleton.mp hm
        rw [this]
        exact Or.inr rfl
  · rw [if_neg hr] at he
    exact hsub e he

theorem registerRowStep_sim {base : SpanTracker}
    (hA : ∀ a ∈ base.active_spans, ∀ b ∈ base.active_spans,
      a.1.2 < b.1.2 + b.2.colspan → b.1.2 < a.1.2 + a.2.colspan → a = b)
    (row n : Nat) (cell : Cell) {st st' : SpanTracker} (col : Nat)
    (stopped : Bool) (hp : TrackerPerm st st')
    (hsub : ∀ e ∈ st.active_spans, e ∈ base.active_spans ∨ e.1.1 = row) :
    ∃ tr tr' rest2, registerRowStep row n (st, col, stopped) cell =
        (tr, rest2) ∧
      registerRowStep row n (st', col, stopped) cell = (tr', rest2) ∧
      TrackerPerm tr tr' ∧
      ∀ e ∈ tr.active_spans, e ∈ base.active_spans ∨ e.1.1 = row := by
  have hocc := occ_eq_of_subset hA row hp hsub
  unfold registerRowStep
  cases stopped with
  | true =>
    rw [if_pos rfl, if_pos rfl]
    exact ⟨st, st', (col, true), rfl, rfl, hp, hsub⟩
  | false =>
    rw [if_neg Bool.false_ne_true, if_neg Bool.false_ne_true]
    rw [skipOccupied_eq row n hocc n col]
    by_cases hge : n ≤ skipOccupied st' row n n col
    · rw [if_pos hge, if_pos hge]
      exact ⟨st, st', (skipOccupied st' row n n col, true), rfl, rfl, hp,
        hsub⟩
    · rw [if_neg hge, if_neg hge]
      by_cases hr : 1 < cell.rowspan
      · rw [if_pos hr, if_pos hr]
        exact ⟨_, _, (skipOccupied st' row n n col + cell.colspan, false),
          rfl, rfl,
          register_rowspan_perm hp row (skipOccupied st' row n n col)
            cell.rowspan cell.colspan none .Top,
          register_subset hsub (skipOccupied st' row n n col) cell.rowspan
            cell.colspan none .Top⟩
      · rw [if_neg hr, if_neg hr]
        exact ⟨st, st',
          (skipOccupied st' row n n col + cell.colspan, false), rfl, rfl,
          hp, hsub⟩

theorem registerRowFold_sim {base : SpanTracker}
    (hA : ∀ a ∈ base.active_spans, ∀ b ∈ base.active_spans,
      a.1.2 < b.1.2 + b.2.colspan → b.1.2 < a.1.2 + a.2.colspan → a = b)
    (row n : Nat) (cells : List Cell) :
    ∀ (st st' : SpanTracker) (col : Nat) (stopped : Bool),
    TrackerPerm st st' →
    (∀ e ∈ st.active_spans, e ∈ base.active_spans ∨ e.1.1 = row) →
    TrackerPerm
      (cells.foldl (registerRowStep row n) (st, col, stopped)).1
      (cells.foldl (registerRowStep row n) (st', col, stopped)).1 := by
  induction cells with
  | nil => intro st st' col stopped hp _; exact hp
  | cons cell cells ih =>
    intro st st' col stopped hp hsub
    simp only [List.foldl_cons]
    obtain ⟨tr, tr', rest2, e1, e2, hperm, hsubn⟩ :=
      registerRowStep_sim hA row n cell col stopped hp hsub
    rw [e1, e2]
    exact ih tr tr' rest2.1 rest2.2 hperm hsubn

theorem registerRowSpans_perm (row n : Nat) (cells : List Cell)
    {st st' : SpanTracker} (hp : TrackerPerm st st')
    (hA : ∀ a ∈ st.active_spans, ∀ b ∈ st.active_spans,
      a.1.2 < b.1.2 + b.2.colspan → b.1.2 < a.1.2 + a.2.colspan → a = b) :
    TrackerPerm (registerRowSpans row n cells st)
      (registerRowSpans row n cells st') := by
  unfold registerRowSpans
  exact registerRowFold_sim hA row n cells st st' 0 false hp
    (fun e he => Or.inl he)

theorem headerRegFold_perm (cells : List Cell) :
    ∀ (st st' : SpanTracker) (col : Nat), TrackerPerm st st' →
    TrackerPerm (cells.foldl headerRegStep (st, col)).1
      (cells.foldl headerRegStep (st', col)).1 := by
  induction cells with
  | nil => intro st st' col hp; exact hp
  | cons cell cells ih =>
    intro st st' col hp
    simp only [List.foldl_cons, headerRegStep]
    by_cases hr : 1 < cell.rowspan
    · rw [if_pos hr, if_pos hr]
      exact ih _ _ _
        (register_rowspan_perm hp 0 col cell.rowspan cell.colspan none .Top)
    · rw [if_neg hr, if_neg hr]
      exact ih _ _ _ hp

theorem registerHeaderSpans_perm (t : Table) {st st' : SpanTracker}
    (hp : TrackerPerm st st') :
    TrackerPerm (registerHeaderSpans t st) (registerHeaderSpans t st') := by
  unfold registerHeaderSpans
  cases t.header with
  | none => exact hp
  | some header => exact headerRegFold_perm header.cells st st' 0 hp

theorem advance_row_perm {st st' : SpanTracker} (hp : TrackerPerm st st')
    (cur : Nat) (hnd : (st.active_spans.map (fun e => e.1)).Nodup)
    (hkeys : ∀ e ∈ st.active_spans, ∀ f ∈ st.ended_spans, f.1 ≠ e.1) :
    TrackerPerm (st.advance_row cur) (st'.advance_row cur) := by
  have hnd' : (st'.active_spans.map (fun e => e.1)).Nodup :=
    ((hp.1.map (fun e => e.1)).nodup_iff).mp hnd
  have hkeys' : ∀ e ∈ st'.active_spans, ∀ f ∈ st'.ended_spans,
      f.1 ≠ e.1 :=
    fun e he f hf => hkeys e (hp.1.mem_iff.mpr he) f (hp.2.mem_iff.mpr hf)
  rw [advance_row_characterization st cur hnd
      (fun e he _ f hf => hkeys e he f hf),
    advance_row_characterization st' cur hnd'
      (fun e he _ f hf => hkeys' e he f hf)]
  exact ⟨(hp.1.filter _).map _, hp.2.append ((hp.1.filter _).map _)⟩

theorem bottomBorderLoop_lookup_eq (t : Table)
    (display_info : List ColumnDisplayInfo) (header_cont : List Bool)
    (last_row_line : Option (List String)) {st st' : SpanTracker}
    (last_row_index : Nat)
    (hlast : ∀ c, st.get_rowspan_at_last_row last_row_index c =
      st'.get_rowspan_at_last_row last_row_index c) :
    ∀ (fuel ci vi : Nat) (first : Bool) (line : String),
    bottomBorderLoop t display_info header_cont last_row_line st
      last_row_index fuel ci vi first line =
    bottomBorderLoop t display_info header_cont last_row_line st'
      last_row_index fuel ci vi first line := by
  intro fuel
  induction fuel with
  | zero => intro ci vi first line; rfl
  | succ fuel ih =>
    intro ci vi first line
    simp only [bottomBorderLoop]
    by_cases hci : ci < display_info.length
    · rw [dif_pos hci, dif_pos hci]
      cases hh : display_info[ci].is_hidden with
      | true =>
        simp only [List.get_eq_getElem, hh, if_true]
        exact ih (ci + 1) vi first line
      | false =>
        simp only [List.get_eq_getElem, hh, Bool.false_eq_true, if_false,
          hlast ci]
        cases hl : st'.get_rowspan_at_last_row last_row_index ci with
        | none =>
          dsimp only
          exact ih _ _ _ _
        | some r =>
          dsimp only
          exact ih _ _ _ _
    · rw [dif_neg hci, dif_neg hci]

theorem draw_bottom_border_lookup_eq (t : Table)
    (display_info : List ColumnDisplayInfo)
    (last_row_line : Option (List String)) {st st' : SpanTracker}
    (last_row_index : Nat)
    (hlast : ∀ c, st.get_rowspan_at_last_row last_row_index c =
      st'.get_rowspan_at_last_row last_row_index c) :
    draw_bottom_border t display_info last_row_line st last_row_index =
      draw_bottom_border t display_info last_row_line st' last_row_index := by
  unfold draw_bottom_border
  dsimp only
  rw [bottomBorderLoop_lookup_eq t display_info _ last_row_line
    last_row_index hlast]

theorem drawRows_sim (t : Table) (display_info : List ColumnDisplayInfo)
    (header_rows : Nat) :
    ∀ (rows : List (List (List String))) (row_index : Nat)
      (st st' : SpanTracker),
    TrackerPerm st st' →
    (∀ s ∈ drawRowsStates t display_info header_rows rows row_index st,
      TrackerOk s) →
    (drawRowsFrom t display_info header_rows rows row_index st).1 =
      (drawRowsFrom t display_info header_rows rows row_index st').1 ∧
    TrackerPerm
      (drawRowsFrom t display_info header_rows rows row_index st).2
      (drawRowsFrom t display_info header_rows rows row_index st').2 := by
  intro rows
  induction rows with
  | nil =>
    intro ri st st' hp _
    exact ⟨rfl, hp⟩
  | cons row rest ih =>
    intro ri st st' hp hok
    by_cases hhdr : ri = 0 ∧ t.header.isSome = true
    · have hok_st : TrackerOk st := by
        apply hok
        simp only [drawRowsStates]
        rw [if_pos hhdr]
        exact List.mem_cons_self _ _
      have hok_st1 : TrackerOk (registerHeaderSpans t st) := by
        apply hok
        simp only [drawRowsStates]
        rw [if_pos hhdr]
        exact List.mem_cons_of_mem _ (List.mem_cons_self _ _)
      have hoktail : ∀ s ∈ drawRowsStates t display_info header_rows rest
          (ri + 1) ((registerHeaderSpans t st).advance_row 1),
          TrackerOk s := by
        intro s hs
        apply hok
        simp only [drawRowsStates]
        rw [if_pos hhdr]
        exact List.mem_cons_of_mem _ (List.mem_cons_of_mem _ hs)
      have hp1 : TrackerPerm (registerHeaderSpans t st)
          (registerHeaderSpans t st') := registerHeaderSpans_perm t hp
      have hp2 : TrackerPerm ((registerHeaderSpans t st).advance_row 1)
          ((registerHeaderSpans t st').advance_row 1) :=
        advance_row_perm hp1 1 hok_st1.1 hok_st1.2.1
      have hrec := ih (ri + 1) _ _ hp2 hoktail
      simp only [drawRowsFrom]
      rw [if_pos hhdr, if_pos hhdr]
      dsimp only
      rw [draw_horizontal_lines_ok_eq t display_info true 0 hp hok_st
        (row.headD []) (rest.head?.bind (fun r => r.head?)), hrec.1]
      exact ⟨rfl, hrec.2⟩
    · have hok_st : TrackerOk st := by
        apply hok
        simp only [drawRowsStates]
        rw [if_neg hhdr]
        exact List.mem_cons_self _ _
      have hok_st1 : TrackerOk
          (if (if ri < header_rows then ri else ri - header_rows) <
              t.rows.length then
            registerRowSpans
              ((if ri < header_rows then ri else ri - header_rows) +
                header_rows) display_info.length
              (t.rows.getD
                (if ri < header_rows then ri else ri - header_rows)
                ⟨[]⟩).cells st
          else st) := by
        apply hok
        simp only [drawRowsStates]
        rw [if_neg hhdr]
        exact List.mem_cons_of_mem _ (List.mem_cons_self _ _)
      have hp1 : TrackerPerm
          (if (if ri < header_rows then ri else ri - header_rows) <
              t.rows.length then
            registerRowSpans
              ((if ri < header_rows then ri else ri - header_rows) +
                header_rows) display_info.length
              (t.rows.getD
                (if ri < header_rows then ri else ri - header_rows)
                ⟨[]⟩).cells st
          else st)
          (if (if ri < header_rows then ri else ri - header_rows) <
              t.rows.length then
            registerRowSpans
              ((if ri < header_rows then ri else ri - header_rows) +
                header_rows) display_info.length
              (t.rows.getD
                (if ri < header_rows then ri else ri - header_rows)
                ⟨[]⟩).cells st'
          else st') := by
        by_cases hlt : (if ri < header_rows then ri else ri - header_rows) <
            t.rows.length
        · rw [if_pos hlt, if_pos hlt]
          exact registerRowSpans_perm _ _ _ hp hok_st.2.2.1
        · rw [if_neg hlt, if_neg hlt]
          exact hp
      have hoktail : ∀ s ∈ drawRowsStates t display_info header_rows rest
          (ri + 1)
          ((if (if ri < header_rows then ri else ri - header_rows) <
              t.rows.length then
            registerRowSpans
              ((if ri < header_rows then ri else ri - header_rows) +
                header_rows) display_info.length
              (t.rows.getD
                (if ri < header_rows then ri else ri - header_rows)
                ⟨[]⟩).cells st
          else st).advance_row
            ((if ri < header_rows then ri else ri - header_rows) +
              header_rows + 1)), TrackerOk s := by
        intro s hs
        apply hok
        simp only [drawRowsStates]
        rw [if_neg hhdr]
        exact List.mem_cons_of_mem _ (List.mem_cons_of_mem _ hs)
      have hp2 := advance_row_perm hp1
        ((if ri < header_rows then ri else ri - header_rows) +
          header_rows + 1) hok_st1.1 hok_st1.2.1
      have hrec := ih (ri + 1) _ _ hp2 hoktail
      simp only [drawRowsFrom]
      rw [if_neg hhdr, if_neg hhdr]
      dsimp only
      cases hnext : rest.head? with
      | none =>
        rw [hrec.1]
        exact ⟨rfl, hrec.2⟩
      | some next_row =>
        dsimp only
        rw [draw_horizontal_lines_ok_eq t display_info false
          ((if ri < header_rows then ri else ri - header_rows) +
            header_rows) hp1 hok_st1 (row.headD []) next_row.head?,
          hrec.1]
        exact ⟨rfl, hrec.2⟩

theorem drawRows_final_mem (t : Table)
    (display_info : List ColumnDisplayInfo) (header_rows : Nat) :
    ∀ (rows : List (List (List String))) (row_index : Nat)
      (st : SpanTracker),
    (drawRowsFrom t display_info header_rows rows row_index st).2 ∈
      drawRowsStates t display_info header_rows rows row_index st := by
  intro rows
  induction rows with
  | nil =>
    intro ri st
    exact List.mem_cons_self _ _
  | cons row rest ih =>
    intro ri st
    by_cases hhdr : ri = 0 ∧ t.header.isSome = true
    · simp only [drawRowsFrom, drawRowsStates]
      rw [if_pos hhdr, if_pos hhdr]
      exact List.mem_cons_of_mem _ (List.mem_cons_of_mem _ (ih _ _))
    · simp only [drawRowsFrom, drawRowsStates]
      rw [if_neg hhdr, if_neg hhdr]
      exact List.mem_cons_of_mem _ (List.mem_cons_of_mem _ (ih _ _))

/-- **C8.** Rendering is deterministic: the border-assembly pipeline's
output is byte-for-byte independent of the hash-map iteration order of
the span tracker.  Formally, running `drawBordersFrom` (of which
`draw_borders` is the instance starting from the empty tracker) from any
two trackers holding the same bindings in different orders produces
identical line lists, provided every state the run passes through
satisfies the no-overlapping-rowspans invariant — at most one span can
match any queried position — plus the hash-map key discipline.  The proof
shows every tracker lookup is order-independent under the invariant and
that `register_rowspan`/`advance_row` preserve the permutation relation
across rows. -/
theorem c8_draw_borders_order_independent (t : Table)
    (rows : List (List (List String)))
    (display_info : List ColumnDisplayInfo) (st st' : SpanTracker)
    (hperm : TrackerPerm st st')
    (hok : ∀ s ∈ drawBordersStates t rows display_info st, TrackerOk s) :
    drawBordersFrom t rows display_info st =
      drawBordersFrom t rows display_info st' := by
  have hmain := drawRows_sim t display_info
    (if t.header.isSome then 1 else 0) rows 0 st st' hperm hok
  have hfinal_ok : TrackerOk
      (drawRowsFrom t display_info (if t.header.isSome then 1 else 0)
        rows 0 st).2 :=
    hok _ (drawRows_final_mem t display_info _ rows 0 st)
  unfold drawBordersFrom
  dsimp only
  rw [hmain.1, draw_bottom_border_lookup_eq t display_info
    (rows.getLast?.bind (fun row => row.head?))
    (if rows.isEmpty then 0 else rows.length - 1)
    (fun c => last_lookup_eq hmain.2 hfinal_ok
      (if rows.isEmpty then 0 else rows.length - 1) c)]

/-- Concrete inputs for the C8 witness: a two-row, one-column table and
two trackers holding the same two active and two ended non-overlapping
spans in opposite iteration orders. -/
def c8ExTable : Table :=
  ⟨none, [⟨[⟨1, 1⟩]⟩, ⟨[⟨1, 1⟩]⟩], .Disabled, fun _ => some "+"⟩

def c8ExRows : List (List (List String)) := [[["aa"]], [["bb"]]]

def c8ExDisplay : List ColumnDisplayInfo := [⟨false, 2⟩]

def c8ExSt : SpanTracker :=
  ⟨[((5, 0), ⟨5, 3, 2, 1, none, .Top⟩),
    ((5, 2), ⟨5, 2, 1, 1, none, .Top⟩)],
   [((0, 7), (1, 1)), ((2, 9), (3, 1))]⟩

def c8ExSt' : SpanTracker :=
  ⟨[((5, 2), ⟨5, 2, 1, 1, none, .Top⟩),
    ((5, 0), ⟨5, 3, 2, 1, none, .Top⟩)],
   [((2, 9), (3, 1)), ((0, 7), (1, 1))]⟩

/-- Witness for C8: the pipeline renders identical lines from the two
permuted trackers, whose run satisfies the invariant. -/
theorem c8_witness :
    TrackerPerm c8ExSt c8ExSt' ∧
    (∀ s ∈ drawBordersStates c8ExTable c8ExRows c8ExDisplay c8ExSt,
      TrackerOk s) ∧
    drawBordersFrom c8ExTable c8ExRows c8ExDisplay c8ExSt =
      drawBordersFrom c8ExTable c8ExRows c8ExDisplay c8ExSt' :=
  ⟨by decide, by decide,
   c8_draw_borders_order_independent c8ExTable c8ExRows c8ExDisplay
     c8ExSt c8ExSt' (by decide) (by decide)⟩

end SuperTable
